import Mathlib

/-! hdf5utils: windowed dataset reader, async reader and compound-record decoder.

A shallow embedding of `dataset.go`, `compound-type.go` and `async-reader.go`.

Conventions of the embedding
* Go `int` is `Int` and Go `uint` is `Nat`, with 64-bit wrap-around: the value of an
  arithmetic expression on `int` is the exact result reduced to the two-complement range
  by `wrapInt` (reducing after every operation gives the same value), the conversion
  `uint(x)` is reduction modulo `2^64` (`toUint`), the conversion `int(u)` is `wrapInt`.
* A Go call that may return a value, return a non-nil `error`, or panic is an `Outcome`.
* The `HdfReader` interface is a record of functions over an arbitrary reader state;
  every function of `HdfDataset` returns the new handle, its outcome and the list of
  reader calls it issued.
* A typed buffer (`*[]float32`, `*[]float64`, `*[]int32`, `*[]byte`) is the `reflect.Kind`
  of its elements with the elements as integers (floats by their bit pattern).
-/

namespace Hdf5utils

/-! ## Outcomes, kinds, buffers -/

/-- Result of a Go call: a value, a non-nil `error` (its message), or a run-time panic. -/
inductive Outcome (β : Type) where
  | ok (v : β)
  | err (e : String)
  | panic
  deriving DecidableEq, Repr

/-- Go `int` arithmetic: the exact integer result reduced to the 64-bit two-complement
range `[-2^63, 2^63)`. -/
def wrapInt (x : Int) : Int :=
  (x + 9223372036854775808) % 18446744073709551616 - 9223372036854775808

/-- Go `reflect.Kind`, an unsigned integer code. -/
abbrev Kind := Nat

/-- Code of `reflect.Int32`. -/
def Kind.Int32 : Kind := 5
/-- Code of `reflect.Uint8`. -/
def Kind.Uint8 : Kind := 8
/-- Code of `reflect.Float32`. -/
def Kind.Float32 : Kind := 13
/-- Code of `reflect.Float64`. -/
def Kind.Float64 : Kind := 14
/-- Code of `reflect.String`. -/
def Kind.String : Kind := 24

/-- Pointer to a typed Go slice held in an `interface` value: element kind and elements. -/
structure Buffer where
  kind : Kind
  elems : List Int
  deriving DecidableEq, Repr

/-- Destination of a vector read (`dest interface`): pointer to a numeric slice or to a
`[]string`; a Go string cut out of a byte buffer is the list of its bytes. -/
inductive Dest where
  | slice (b : Buffer)
  | strings (xs : List (List Int))
  deriving DecidableEq, Repr

/-! ## `HdfStrSet` -/

/-- Go `HdfStrSet`. -/
structure HdfStrSet where
  sizes : List Int
  buffersize : Int
  deriving DecidableEq, Repr

/-- Go `NewHdfStrSet`: the widths and their running sum. -/
def NewHdfStrSet (sizes : List Int) : HdfStrSet :=
  ⟨sizes, sizes.foldl (fun result v => wrapInt (result + v)) 0⟩

/-- Go `strconv.Itoa`. -/
def Itoa (v : Int) : String := toString v

/-- Go `HdfStrSet.ToString`: the widths in decimal joined by commas. -/
def HdfStrSet.ToString (h : HdfStrSet) : String :=
  ",".intercalate (h.sizes.map Itoa)

/-- Go `HdfStrSet.Cols`. -/
def HdfStrSet.Cols (h : HdfStrSet) : List Int := h.sizes

/-- Go `HdfStrSet.RowSize`. -/
def HdfStrSet.RowSize (h : HdfStrSet) : Int := h.buffersize

/-- The loop of `BytesTo`: `result += h.sizes[i]` for `i = from, ..., bound - 1`, in `n`
rounds; `none` is the index panic of `h.sizes[i]`. -/
def bytesToLoop (sizes : List Int) : Nat → Nat → Int → Option Int
  | 0, _, result => some result
  | n + 1, i, result =>
    match sizes.get? i with
    | none => none
    | some v => bytesToLoop sizes n (i + 1) (wrapInt (result + v))

/-- Go `HdfStrSet.BytesTo`: the returned value and the returned `error` (nil is `none`);
the outer `none` is the index panic of the loop, which runs while `i < col-1`. -/
def HdfStrSet.BytesTo (h : HdfStrSet) (col : Int) : Option (Int × Option String) :=
  if col > (h.sizes.length : Int) - 1 then
    some (-1, some "Column number requested exceeds the size of the string array")
  else
    (bytesToLoop h.sizes (wrapInt (col - 1)).toNat 0 0).map fun result => (result, none)

/-- Go `HdfStrSet.Size`: the returned value and `error`; the outer `none` is the index
panic of `h.sizes[col]` at a negative `col`. -/
def HdfStrSet.Size (h : HdfStrSet) (col : Int) : Option (Int × Option String) :=
  if col > (h.sizes.length : Int) - 1 then
    some (-1, some "Column number requested exceeds the size of the string array")
  else if col < 0 then none
  else (h.sizes.get? col.toNat).map fun v => (v, none)

/-! ## Data model of the dataset handle -/

/-- Go `HdfReadOptions` (the open file handle is left out). -/
structure HdfReadOptions where
  Dtype : Kind
  Strsizes : HdfStrSet
  IncrementalRead : Bool
  IncrementalReadDir : Int
  IncrementSize : Int
  ReadOnCreate : Bool
  Filepath : String
  deriving DecidableEq, Repr

/-- Go `HdfData`; `Buffer` is an `interface` value, nil (`none`) in the zero value. -/
structure HdfData where
  DsetDims : List Nat
  Dims : List Nat
  Buffer : Option Buffer
  deriving DecidableEq, Repr

/-- Go `readincrement`: range of rows or columns currently in memory. -/
structure readincrement where
  start : Int
  end_ : Int
  deriving DecidableEq, Repr

/-- The two reading methods of the Go interface `HdfReader` that `HdfDataset` calls, over a
reader state `σ`. -/
structure HdfReader (σ : Type) where
  Read : σ → Outcome HdfData × σ
  ReadSubset : σ → List Int → List Int → Outcome HdfData × σ

/-- One call on the reader, with its arguments. -/
inductive ReaderCall where
  | Read
  | ReadSubset (rowrange colrange : List Int)
  deriving DecidableEq, Repr

/-- Go `HdfDataset`; `Data` is a pointer (nil before the first read). -/
structure HdfDataset (σ : Type) where
  Data : Option HdfData
  Reader : σ
  options : HdfReadOptions
  dsetdims : List Nat
  increment : readincrement

/-- What a method of `HdfDataset` leaves behind: the handle, the outcome, and the reader
calls issued, in order. -/
structure Ret (σ β : Type) where
  handle : HdfDataset σ
  out : Outcome β
  calls : List ReaderCall

variable {σ : Type}

/-- Go `HdfDataset.Dims`. -/
def HdfDataset.Dims (h : HdfDataset σ) : List Nat := h.dsetdims

/-- Go `int(dims[i])`: the `i`-th extent as an `int`, a panic (`none`) when the shape has
no such entry. -/
def dimAt (dims : List Nat) (i : Nat) : Option Int :=
  (dims.get? i).map fun d => wrapInt (d : Int)

/-- Go `HdfDataset.Rows`: `int(h.dsetdims[0])`. -/
def HdfDataset.Rows (h : HdfDataset σ) : Option Int :=
  dimAt h.dsetdims 0

/-- Go `HdfDataset.Cols`. -/
def HdfDataset.Cols (h : HdfDataset σ) : Int :=
  if h.dsetdims.length > 1 then
    match dimAt h.dsetdims 1 with
    | some d => d
    | none => 1
  else 1

/-- Go `HdfDataset.Read`. -/
def HdfDataset.Read (R : HdfReader σ) (h : HdfDataset σ) : Ret σ Unit :=
  match R.Read h.Reader with
  | (.ok data, s) =>
      ⟨{ h with Reader := s, Data := some data, dsetdims := data.Dims }, .ok (), [.Read]⟩
  | (.err e, s) => ⟨{ h with Reader := s }, .err e, [.Read]⟩
  | (.panic, s) => ⟨{ h with Reader := s }, .panic, [.Read]⟩

/-- Go `HdfDataset.ReadSubset`. -/
def HdfDataset.ReadSubset (R : HdfReader σ) (h : HdfDataset σ)
    (rowrange colrange : List Int) : Ret σ Unit :=
  match R.ReadSubset h.Reader rowrange colrange with
  | (.ok data, s) =>
      ⟨{ h with Reader := s, Data := some data, dsetdims := data.Dims }, .ok (),
        [.ReadSubset rowrange colrange]⟩
  | (.err e, s) => ⟨{ h with Reader := s }, .err e, [.ReadSubset rowrange colrange]⟩
  | (.panic, s) => ⟨{ h with Reader := s }, .panic, [.ReadSubset rowrange colrange]⟩

/-- Go `reflect.Value.Slice(i, j)` on a slice whose capacity is its length: a panic unless
`0 ≤ i ≤ j ≤ len`. -/
def sliceRange (xs : List Int) (i j : Int) : Option (List Int) :=
  if i < 0 ∨ j < i ∨ j > xs.length then none
  else some ((xs.drop i.toNat).take (j.toNat - i.toNat))

/-- Go `reflect.Value.Index(i)` on a slice: a panic unless `0 ≤ i < len`. -/
def indexAt (xs : List Int) (i : Int) : Option Int :=
  if i < 0 then none else xs[i.toNat]?

/-- The loop of the column branch of `readVector`: for `i = from, ..., from + n - 1` append
`dv.Index(i*colnum + index)`; `none` is a panic. -/
def columnLoop (xs : List Int) (colnum index : Int) : Nat → Int → List Int → Option (List Int)
  | 0, _, acc => some acc
  | n + 1, i, acc =>
      match indexAt xs (wrapInt (i * colnum + index)) with
      | none => none
      | some x => columnLoop xs colnum index n (i + 1) (acc ++ [x])

/-- Go `HdfDataset.readVector`. The destination must point to a slice of the buffer's
element type (`reflect` panics otherwise); a nil `Data` or a nil `Buffer` panics. -/
def HdfDataset.readVector (h : HdfDataset σ) (rowread : Bool) (index : Int) (dest : Dest) :
    Outcome Dest :=
  let colnum := h.Cols
  match h.Data.bind (fun data => data.Buffer) with
  | none => .panic
  | some dv =>
    if rowread then
      let offset := wrapInt (index * colnum)
      match sliceRange dv.elems offset (wrapInt (offset + colnum)), dest with
      | some xs, .slice d => if d.kind = dv.kind then .ok (.slice ⟨dv.kind, xs⟩) else .panic
      | _, _ => .panic
    else
      let colnum := if h.options.IncrementalRead
        then wrapInt (h.increment.end_ - h.increment.start + 1) else colnum
      match h.Rows with
      | none => .panic
      | some rows =>
        match dest with
        | .slice d =>
          if rows ≤ 0 then .ok (.slice ⟨d.kind, []⟩)
          else
            match columnLoop dv.elems colnum index rows.toNat 0 [] with
            | none => .panic
            | some xs => if d.kind = dv.kind then .ok (.slice ⟨dv.kind, xs⟩) else .panic
        | .strings _ =>
          if rows ≤ 0 then .ok (.strings []) else .panic

/-- Go `HdfDataset.readIncrementRow`. -/
def HdfDataset.readIncrementRow (R : HdfReader σ) (h : HdfDataset σ) (r : Int) (dest : Dest) :
    Ret σ Dest :=
  if r > h.increment.end_ then
    let rowend := wrapInt (r + h.options.IncrementSize - 1)
    match dimAt h.dsetdims 0 with
    | none => ⟨h, .panic, []⟩
    | some d0 =>
      let rowend := if wrapInt (rowend + 1) ≥ d0 then wrapInt (d0 - 1) else rowend
      match dimAt h.dsetdims 1 with
      | none => ⟨h, .panic, []⟩
      | some d1 =>
        match R.ReadSubset h.Reader [r, rowend] [0, wrapInt (d1 - 1)] with
        | (.ok data, s) =>
            let h1 : HdfDataset σ :=
              { h with Reader := s, Data := some data, increment := ⟨r, rowend⟩ }
            ⟨h1, h1.readVector true (wrapInt (r - h1.increment.start)) dest,
              [.ReadSubset [r, rowend] [0, wrapInt (d1 - 1)]]⟩
        | (.err e, s) =>
            ⟨{ h with Reader := s }, .err e, [.ReadSubset [r, rowend] [0, wrapInt (d1 - 1)]]⟩
        | (.panic, s) =>
            ⟨{ h with Reader := s }, .panic, [.ReadSubset [r, rowend] [0, wrapInt (d1 - 1)]]⟩
  else
    ⟨h, h.readVector true (wrapInt (r - h.increment.start)) dest, []⟩

/-- Go `HdfDataset.readIncrementColumn`. -/
def HdfDataset.readIncrementColumn (R : HdfReader σ) (h : HdfDataset σ) (c : Int)
    (dest : Dest) : Ret σ Dest :=
  if c > h.increment.end_ then
    let colend := wrapInt (c + h.options.IncrementSize - 1)
    match dimAt h.dsetdims 1 with
    | none => ⟨h, .panic, []⟩
    | some d1 =>
      let colend := if wrapInt (colend + 1) ≥ d1 then wrapInt (d1 - 1) else colend
      match dimAt h.dsetdims 0 with
      | none => ⟨h, .panic, []⟩
      | some d0 =>
        match R.ReadSubset h.Reader [0, wrapInt (d0 - 1)] [c, colend] with
        | (.ok data, s) =>
            let h1 : HdfDataset σ :=
              { h with Reader := s, Data := some data, increment := ⟨c, colend⟩ }
            ⟨h1, h1.readVector false (wrapInt (c - h1.increment.start)) dest,
              [.ReadSubset [0, wrapInt (d0 - 1)] [c, colend]]⟩
        | (.err e, s) =>
            ⟨{ h with Reader := s }, .err e, [.ReadSubset [0, wrapInt (d0 - 1)] [c, colend]]⟩
        | (.panic, s) =>
            ⟨{ h with Reader := s }, .panic, [.ReadSubset [0, wrapInt (d0 - 1)] [c, colend]]⟩
  else
    ⟨h, h.readVector false (wrapInt (c - h.increment.start)) dest, []⟩

/-- The row branch of `readVectorString`: for each width `v` of `Cols()` append the
trimmed string `buffer[offset:offset+v]` to the destination and advance the offset. -/
def rowStrings (TrimSpace : List Int → List Int) (buffer : List Int) :
    List Int → Int → Dest → Outcome Dest
  | [], _, dest => .ok dest
  | v :: vs, offset, dest =>
      match sliceRange buffer offset (wrapInt (offset + v)), dest with
      | some bs, .strings xs =>
          rowStrings TrimSpace buffer vs (wrapInt (offset + v)) (.strings (xs ++ [TrimSpace bs]))
      | _, _ => .panic

/-- The column branch of `readVectorString`: for `i = from, ...` (`n` rounds) append the
trimmed string `buffer[offset:offset+sz]` with `offset = i*RowSize() + bt`. -/
def columnStrings (TrimSpace : List Int → List Int) (buffer : List Int) (rowsize bt sz : Int) :
    Nat → Int → Dest → Outcome Dest
  | 0, _, dest => .ok dest
  | n + 1, i, dest =>
      match sliceRange buffer (wrapInt (i * rowsize + bt)) (wrapInt (i * rowsize + bt + sz)),
          dest with
      | some bs, .strings xs =>
          columnStrings TrimSpace buffer rowsize bt sz n (i + 1) (.strings (xs ++ [TrimSpace bs]))
      | _, _ => .panic

/-- The destination after `value.Set(value.Slice(0, 0))`. -/
def Dest.truncate : Dest → Dest
  | .slice b => .slice ⟨b.kind, []⟩
  | .strings _ => .strings []

/-- Go `HdfDataset.readVectorString`; `strings.TrimSpace` (standard library) is a
parameter. The buffer must be a `*[]uint8`. -/
def HdfDataset.readVectorString (TrimSpace : List Int → List Int) (h : HdfDataset σ)
    (rowread : Bool) (index : Int) (dest : Dest) : Outcome Dest :=
  match h.Data.bind (fun data => data.Buffer) with
  | none => .panic
  | some dv =>
    if dv.kind ≠ Kind.Uint8 then .panic
    else
      let buffer := dv.elems
      if rowread then
        rowStrings TrimSpace buffer h.options.Strsizes.Cols
          (wrapInt (index * h.options.Strsizes.RowSize)) dest
      else
        match h.Rows with
        | none => .panic
        | some rows =>
          if rows ≤ 0 then .ok dest.truncate
          else
            match h.options.Strsizes.BytesTo index, h.options.Strsizes.Size index with
            | some (bt, _), some (sz, _) =>
              columnStrings TrimSpace buffer h.options.Strsizes.RowSize bt sz rows.toNat 0
                dest.truncate
            | _, _ => .panic

/-- Go `HdfDataset.ReadRow`. -/
def HdfDataset.ReadRow (R : HdfReader σ) (TrimSpace : List Int → List Int) (h : HdfDataset σ)
    (r : Int) (dest : Dest) : Ret σ Dest :=
  if h.options.IncrementalRead then
    if h.options.IncrementalReadDir ≠ 0 then
      ⟨h, .err "Cannot perform row read on dataset configured for incremental readng of columns",
        []⟩
    else h.readIncrementRow R r dest
  else
    if h.options.Dtype = Kind.String then ⟨h, h.readVectorString TrimSpace true r dest, []⟩
    else ⟨h, h.readVector true r dest, []⟩

/-- Go `HdfDataset.ReadColumn`. -/
def HdfDataset.ReadColumn (R : HdfReader σ) (h : HdfDataset σ) (c : Int) (dest : Dest) :
    Ret σ Dest :=
  if h.options.IncrementalRead then
    if h.options.IncrementalReadDir ≠ 1 then
      ⟨h, .err "Cannot perform column read on dataset configured for incremental readng of rows",
        []⟩
    else h.readIncrementColumn R c dest
  else ⟨h, h.readVector false c dest, []⟩

/-- One call on a dataset handle. -/
inductive Op where
  | Read
  | ReadSubset (rowrange colrange : List Int)
  | ReadRow (r : Int) (dest : Dest)
  | ReadColumn (c : Int) (dest : Dest)
  deriving DecidableEq, Repr

/-- The handle left by one call, whether the call returned a nil error, and the reader calls
it issued. -/
def HdfDataset.step (R : HdfReader σ) (TrimSpace : List Int → List Int) (h : HdfDataset σ) :
    Op → HdfDataset σ × Bool × List ReaderCall
  | .Read =>
      let ret := h.Read R
      (ret.handle, decide (ret.out = .ok ()), ret.calls)
  | .ReadSubset rowrange colrange =>
      let ret := h.ReadSubset R rowrange colrange
      (ret.handle, decide (ret.out = .ok ()), ret.calls)
  | .ReadRow r dest =>
      let ret := h.ReadRow R TrimSpace r dest
      (ret.handle, (match ret.out with | .ok _ => true | _ => false), ret.calls)
  | .ReadColumn c dest =>
      let ret := h.ReadColumn R c dest
      (ret.handle, (match ret.out with | .ok _ => true | _ => false), ret.calls)

/-- A sequence of calls on a handle, one after the other: the final handle, whether every
call returned a nil error, and all reader calls issued. -/
def HdfDataset.run (R : HdfReader σ) (TrimSpace : List Int → List Int) :
    HdfDataset σ → List Op → HdfDataset σ × Bool × List ReaderCall
  | h, [] => (h, true, [])
  | h, op :: ops =>
      let (h1, ok1, calls1) := h.step R TrimSpace op
      let (h2, ok2, calls2) := HdfDataset.run R TrimSpace h1 ops
      (h2, ok1 && ok2, calls1 ++ calls2)

/-! ## `HdfReaderSync` -/

/-- Go conversion `uint(x)` of an `int`: two-complement wrap-around to 64 bits. -/
def toUint (x : Int) : Nat := (x % 2 ^ 64).toNat

/-- The operations of package `hdf5` on the open dataset that the synchronous reader
calls; each returns its `error` (nil is `none`), the reads also the destination as
filled. -/
structure Hdf5Lib where
  SelectHyperslab : List Nat → List Nat → List Nat → List Nat → Option String
  CreateSimpleDataspace : List Nat → List Nat → Option String
  Read : Buffer → Buffer × Option String
  ReadSubset : Buffer → List Nat → List Nat → Buffer × Option String

/-- Go `HdfReaderSync` without its file and dataset pointers. -/
structure HdfReaderSync where
  dtype : Kind
  dims : List Nat
  strsizes : HdfStrSet
  deriving DecidableEq, Repr

/-- Go `arraySize`: the product of the extents in `uint` arithmetic. -/
def arraySize (dims : List Nat) : Nat :=
  dims.foldl (fun size d => (size * d) % 2 ^ 64) 1

/-- Go `make([]T, n)`: `n` zero elements, a panic for a negative length or one beyond the
range of `int` (limits of the allocator below that are not modelled). -/
def makeSlice (n : Int) : Option (List Int) :=
  if n < 0 ∨ n ≥ 2 ^ 63 then none else some (List.replicate n.toNat 0)

/-- Go `makeDataset`. -/
def makeDataset (dims : List Nat) (dtype : Kind) (strbuffersize : Int) : Outcome Buffer :=
  if dtype = Kind.Float32 ∨ dtype = Kind.Float64 ∨ dtype = Kind.Int32 then
    match makeSlice (arraySize dims) with
    | some d => .ok ⟨dtype, d⟩
    | none => .panic
  else if dtype = Kind.String then
    match dimAt dims 0 with
    | none => .panic
    | some d0 =>
      match makeSlice (wrapInt (strbuffersize * d0)) with
      | some d => .ok ⟨Kind.Uint8, d⟩
      | none => .panic
  else .err "Unable to make dataset: invalid datatype"

/-- Go `HdfReaderSync.getMemspace`: the shape of the memory space, an error of the
backend, or the index panic on a range with fewer than two entries. -/
def HdfReaderSync.getMemspace (lib : Hdf5Lib) (rowrange colrange : List Int) :
    Outcome (List Nat) :=
  match rowrange, colrange with
  | r0 :: r1 :: _, c0 :: c1 :: _ =>
    let rcount := (toUint (r1 - r0) + 1) % 2 ^ 64
    let colcount := (toUint (c1 - c0) + 1) % 2 ^ 64
    match lib.SelectHyperslab [toUint r0, toUint c0] [1, 1] [rcount, colcount] [1, 1] with
    | some err => .err err
    | none =>
      match lib.CreateSimpleDataspace [rcount, colcount] [rcount, colcount] with
      | some err => .err err
      | none => .ok [rcount, colcount]
  | _, _ => .panic

/-- Go `HdfReaderSync.Read`. -/
def HdfReaderSync.Read (lib : Hdf5Lib) (h : HdfReaderSync) : Outcome HdfData :=
  match makeDataset h.dims h.dtype h.strsizes.RowSize with
  | .ok dest =>
    match lib.Read dest with
    | (_, some err) => .err err
    | (dest, none) => .ok ⟨h.dims, h.dims, some dest⟩
  | .err e => .err e
  | .panic => .panic

/-- Go `HdfReaderSync.ReadSubset`. -/
def HdfReaderSync.ReadSubset (lib : Hdf5Lib) (h : HdfReaderSync)
    (rowrange colrange : List Int) : Outcome HdfData :=
  match HdfReaderSync.getMemspace lib rowrange colrange with
  | .ok dims =>
    match makeDataset dims h.dtype h.strsizes.RowSize with
    | .ok dest =>
      match lib.ReadSubset dest
          [toUint (rowrange.getD 0 0), toUint (colrange.getD 0 0)] dims with
      | (_, some err) => .err err
      | (dest, none) => .ok ⟨h.dims, dims, some dest⟩
    | .err e => .err e
    | .panic => .panic
  | .err e => .err e
  | .panic => .panic

/-- The synchronous reader as an `HdfReader`; its state never changes. -/
def HdfReaderSync.asReader (lib : Hdf5Lib) : HdfReader HdfReaderSync where
  Read := fun h => (h.Read lib, h)
  ReadSubset := fun h rowrange colrange => (h.ReadSubset lib rowrange colrange, h)

/-- Go `NewHdfDataset` once `NewHdfReaderSync` has returned the reader `reader` with shape
`reader.dims`. -/
def NewHdfDataset (lib : Hdf5Lib) (reader : HdfReaderSync) (options : HdfReadOptions) :
    Outcome (HdfDataset HdfReaderSync) :=
  let ri : readincrement := ⟨0, -1⟩
  if options.ReadOnCreate ∧ ¬ options.IncrementalRead then
    match reader.Read lib with
    | .ok data => .ok ⟨some data, reader, options, reader.dims, ri⟩
    | .err e => .err e
    | .panic => .panic
  else .ok ⟨none, reader, options, reader.dims, ri⟩

/-! ## `HdfReaderAsync` and the worker process -/

/-- Go `AsyncInput`; the map `Vars` is the list of its entries in iteration order. -/
structure AsyncInput where
  Filepath : String
  Datapath : String
  Namedpipe : String
  Vars : List (String × String)
  deriving DecidableEq, Repr

/-- Go `varsToEnv`: a slice made with `len(vars)` entries, then one `k=v` appended per
entry of the map. -/
def varsToEnv (vars : List (String × String)) : List String :=
  vars.foldl (fun env kv => env ++ [kv.1 ++ "=" ++ kv.2]) (List.replicate vars.length "")

/-- Go `strconv.FormatBool`. -/
def FormatBool (b : Bool) : String := if b then "true" else "false"

/-- Go `HdfReaderAsync`. -/
structure HdfReaderAsync where
  filepath : String
  datapath : String
  options : HdfReadOptions
  dims : List Nat
  subset : String
  deriving DecidableEq, Repr

/-- What the rendezvous on the named pipe gives the caller of `RunAsync`: either
`os.OpenFile` and `Decode` return, leaving the destination `dset` and the error `err` of
`Decode`, or no process ever opens the pipe for writing and `os.OpenFile` does not
return. -/
inductive Transfer where
  | decoded (dset : HdfData) (err : Option String)
  | blocked
  deriving DecidableEq, Repr

/-- What the caller's process and operating system contribute to one transfer: the result
of `GetPipe()`, `os.Getenv`, and the outcome of running the worker with a command, an
operation kind and an environment while the caller opens the pipe and decodes it into the
destination. -/
structure AsyncOS where
  GetPipe : String × Option String
  Getenv : String → String
  transfer : String → String → List String → HdfData → Transfer

/-- What a call of `RunAsync` did: the destination afterwards, the returned error, whether
`wg.Done()` was called. -/
structure RunAsyncResult where
  dset : HdfData
  err : Option String
  wgDone : Bool
  deriving DecidableEq, Repr

/-- How a call of `RunAsync` ends: it returns, it never returns because `os.OpenFile`
blocks on the pipe, or it panics. -/
inductive RunAsyncOutcome where
  | returned (res : RunAsyncResult)
  | blocked
  | panic
  deriving DecidableEq, Repr

/-- Go `RunAsync`; the panic is the nil-pointer panic on `proc` for an operation kind that
is neither `DSET` nor `ATTR`. -/
def RunAsync (os : AsyncOS) (hdfType : String) (input : AsyncInput) (dset : HdfData) :
    RunAsyncOutcome :=
  let hdfutilCmd := os.Getenv "HDFDUTILCMD"
  if hdfutilCmd = "" then
    .returned ⟨dset, some "Missing path to raslib executable", false⟩
  else
    let env := [
      "AWS_REGION=" ++ os.Getenv "AWS_REGION",
      "AWS_ACCESS_KEY_ID=" ++ os.Getenv "AWS_ACCESS_KEY_ID",
      "AWS_SECRET_ACCESS_KEY=" ++ os.Getenv "AWS_SECRET_ACCESS_KEY",
      "LD_LIBRARY_PATH=" ++ os.Getenv "LD_LIBRARY_PATH",
      "NAMEDPIPE=" ++ input.Namedpipe,
      "FILEPATH=" ++ input.Filepath,
      "DATAPATH=" ++ input.Datapath]
    if hdfType = "DSET" ∨ hdfType = "ATTR" then
      let env := env ++ varsToEnv input.Vars
      match os.transfer hdfutilCmd hdfType env dset with
      | .decoded dset1 err => .returned ⟨dset1, err, true⟩
      | .blocked => .blocked
    else .panic

/-- The `AsyncInput` that `HdfReaderAsync.read` assembles for the pipe `pipe`. -/
def HdfReaderAsync.descriptor (h : HdfReaderAsync) (pipe : String) (dimsOnly : Bool) :
    AsyncInput where
  Filepath := h.filepath
  Datapath := h.datapath
  Namedpipe := pipe
  Vars := [
    ("HDFOPTSTRSIZES", h.options.Strsizes.ToString),
    ("HDFOPTTYPE", Itoa (wrapInt (h.options.Dtype : Int))),
    ("HDFSUBSET", h.subset),
    ("HDFDIMSONLY", FormatBool dimsOnly)]

/-- Go `HdfReaderAsync.read`: the result of `RunAsync` is dropped and `(&data, nil)` is
returned once the wait group is released; `none` when `wg.Wait()` never returns, because
`RunAsync` returned without `wg.Done()` or never returns. -/
def HdfReaderAsync.read (os : AsyncOS) (h : HdfReaderAsync) (dimsOnly : Bool) :
    Option (Outcome HdfData) :=
  match os.GetPipe with
  | (_, some err) => some (.err err)
  | (pipe, none) =>
    match RunAsync os "DSET" (h.descriptor pipe dimsOnly) ⟨[], [], none⟩ with
    | .panic => some .panic
    | .blocked => none
    | .returned res => if res.wgDone then some (.ok res.dset) else none

/-- Go `HdfReaderAsync.Read`, with the reader afterwards. -/
def HdfReaderAsync.Read (os : AsyncOS) (h : HdfReaderAsync) :
    Option (Outcome HdfData × HdfReaderAsync) :=
  match h.read os false with
  | none => none
  | some (.ok data) => some (.ok data, { h with dims := data.Dims })
  | some (.err e) => some (.err e, h)
  | some .panic => some (.panic, h)

/-- Go `HdfReaderAsync.ReadSubset`, with the reader afterwards. -/
def HdfReaderAsync.ReadSubset (os : AsyncOS) (h : HdfReaderAsync)
    (rowrange colrange : List Int) : Option (Outcome HdfData × HdfReaderAsync) :=
  match rowrange, colrange with
  | r0 :: r1 :: _, c0 :: c1 :: _ =>
    let h1 : HdfReaderAsync :=
      { h with subset := Itoa r0 ++ "," ++ Itoa r1 ++ "," ++ Itoa c0 ++ "," ++ Itoa c1 }
    match h1.read os false with
    | none => none
    | some (.ok data) => some (.ok data, { h1 with dims := data.Dims })
    | some (.err e) => some (.err e, h1)
    | some .panic => some (.panic, h1)
  | _, _ => some (.panic, h)

/-- Go `strings.Split(s, ",")` on the characters of `s`. -/
def splitComma : List Char → List (List Char)
  | [] => [[]]
  | c :: cs =>
    if c = ',' then [] :: splitComma cs
    else
      match splitComma cs with
      | [] => [[c]]
      | w :: ws => (c :: w) :: ws

/-- Go `strconv.Atoi`: an optional sign and decimal digits, within the range of `int`;
`none` is a non-nil error. -/
def Atoi (s : List Char) : Option Int :=
  let body := match s with
    | '+' :: t => t
    | '-' :: t => t
    | t => t
  if body = [] ∨ ¬ body.all Char.isDigit then none
  else
    let n : Int := body.foldl (fun acc c => 10 * acc + ((c.toNat : Int) - 48)) 0
    let v : Int := if s.head? = some '-' then -n else n
    if v < -(2 ^ 63) ∨ v ≥ 2 ^ 63 then none else some v

/-- Go `csvToRanges`: row range, column range (nil is the empty list) and error. -/
def csvToRanges (csv : String) : List Int × List Int × Option String :=
  let vals := splitComma csv.toList
  if vals.length = 4 then
    match vals.mapM Atoi with
    | none => ([], [], some "strconv.Atoi: parsing failed")
    | some ranges => (ranges.take 2, (ranges.drop 2).take 2, none)
  else ([], [], some "Invalid range")

/-- Go `os.Getenv` in a process started with the environment `env`: the value of the last
entry `key=value`, the empty string without one. -/
def getenvIn (env : List String) (key : String) : String :=
  match env.reverse.find? (fun e => (key.toList ++ ['=']).isPrefixOf e.toList) with
  | some e => String.mk (e.toList.drop (key.length + 1))
  | none => ""

/-- Go `getOptions`. -/
def getOptions (Getenv : String → String) : Outcome HdfReadOptions :=
  match Atoi (Getenv "HDFOPTTYPE").toList with
  | none => .err "strconv.Atoi: parsing failed"
  | some typeInt => .ok ⟨toUint typeInt, ⟨[], 0⟩, false, 0, 0, true, ""⟩

/-- Go `AsyncHdfRead` on a dataset of shape `dims`: the `data.Data` that the worker encodes
into the pipe; an error is the exit through `log.Fatal`. -/
def AsyncHdfRead (lib : Hdf5Lib) (Getenv : String → String) (dims : List Nat) :
    Outcome (Option HdfData) :=
  match getOptions Getenv with
  | .err e => .err e
  | .panic => .panic
  | .ok options =>
    match NewHdfDataset lib ⟨options.Dtype, dims, options.Strsizes⟩ options with
    | .err e => .err e
    | .panic => .panic
    | .ok data =>
      if Getenv "HDFDIMSONLY" ≠ "true" then
        let subset := Getenv "HDFSUBSET"
        if subset ≠ "" then
          let ranges := csvToRanges subset
          let ret := data.ReadSubset (HdfReaderSync.asReader lib) ranges.1 ranges.2.1
          match ret.out with
          | .ok _ => .ok ret.handle.Data
          | .err e => .err e
          | .panic => .panic
        else
          let ret := data.Read (HdfReaderSync.asReader lib)
          match ret.out with
          | .ok _ => .ok ret.handle.Data
          | .err e => .err e
          | .panic => .panic
      else .ok data.Data

/-! ## Compound records (`compound-type.go`, `byteutils.go`) -/

/-- Go `FieldMetadata`. -/
structure FieldMetadata where
  FieldName : String
  FieldIndex : Int
  FieldType : Kind
  StringSize : Int
  HdfName : String
  deriving DecidableEq, Repr

/-- Go `unpackTable`. -/
structure unpackTable where
  ValueIndex : Int
  TargetIndex : Int
  Len : Int
  deriving DecidableEq, Repr

/-- Go `CompoundAttributeMetadata`. -/
structure CompoundAttributeMetadata where
  NumFields : Int
  FieldNames : List String
  Dest : List FieldMetadata
  UT : List unpackTable
  deriving DecidableEq, Repr

/-- Go map `typesize`; a kind without an entry reads as 0. -/
def typesize (k : Kind) : Int :=
  if k = Kind.Uint8 then 1
  else if k = Kind.Int32 then 4
  else if k = Kind.Float32 then 4
  else if k = Kind.Float64 then 8
  else 0

/-- Go `typeSize`. -/
def typeSize (fm : FieldMetadata) : Int :=
  if fm.FieldType = Kind.String then fm.StringSize else typesize fm.FieldType

/-- The search loop of `destType` over the destination fields. -/
def destTypeIn (hdfName : String) : List FieldMetadata → Option FieldMetadata
  | [] => none
  | v :: vs => if v.HdfName = hdfName then some v else destTypeIn hdfName vs

/-- Go `CompoundAttributeMetadata.destType`. -/
def CompoundAttributeMetadata.destType (cam : CompoundAttributeMetadata) (hdfName : String) :
    Except String FieldMetadata :=
  match destTypeIn hdfName cam.Dest with
  | some v => .ok v
  | none => .error ("Invalid field in the hdf dataset: " ++ hdfName)

/-- The loop of `BuildUnpackTable` over the remaining field names, at index `i` with the
table `ut` built so far. -/
def buildUnpackLoop (cam : CompoundAttributeMetadata) :
    List String → Int → List unpackTable → Except String (List unpackTable)
  | [], _, ut => .ok ut
  | fn :: fns, i, ut =>
    match cam.destType fn with
    | .error err => .error err
    | .ok fm => buildUnpackLoop cam fns (i + 1) (ut ++ [⟨i, fm.FieldIndex, typeSize fm⟩])

/-- Go `CompoundAttributeMetadata.BuildUnpackTable`: the metadata afterwards and the
returned error (nil is `none`). -/
def CompoundAttributeMetadata.BuildUnpackTable (cam : CompoundAttributeMetadata) :
    CompoundAttributeMetadata × Option String :=
  match buildUnpackLoop cam cam.FieldNames 0 [] with
  | .error err => (cam, some err)
  | .ok ut => ({ cam with UT := ut }, none)

/-- The entries appended by the loop of `BuildUnpackTable`: one per field name, numbered
from `i`, each pointing at a destination field of that name. -/
def TableFor (cam : CompoundAttributeMetadata) (fns : List String) (i : Int)
    (us : List unpackTable) : Prop :=
  us.length = fns.length ∧
    ∀ (k : Nat) (e : unpackTable), us[k]? = some e →
      e.ValueIndex = i + k ∧
        ∃ v ∈ cam.Dest, fns[k]? = some v.HdfName ∧ e.TargetIndex = v.FieldIndex

/-- Go `CompoundAttributeMetadata.PackedSize`. -/
def CompoundAttributeMetadata.PackedSize (cam : CompoundAttributeMetadata) : Int :=
  cam.UT.foldl (fun size v => wrapInt (size + v.Len)) 0

/-- Go `binary.LittleEndian.Uint32` and `Uint64`: the bytes as a little-endian number. -/
def littleEndian : List Int → Int
  | [] => 0
  | b :: bs => b + 256 * littleEndian bs

/-- Go `I32fb`: the four bytes as a little-endian `uint32`, converted to `int32`. -/
def I32fb (bytes : List Int) : Int :=
  let bits := littleEndian bytes
  if bits ≥ 2 ^ 31 then bits - 2 ^ 32 else bits

/-- Go `bytes.Trim(s, "\x00")`: leading and trailing NUL bytes removed. -/
def trimNul (s : List Int) : List Int :=
  ((s.dropWhile (fun b => b == 0)).reverse.dropWhile (fun b => b == 0)).reverse

/-- A field of the decoded record: the zero value, or what `unpack` stored. Floats are
kept as the bit pattern handed to `math.Float32frombits` or `math.Float64frombits`. -/
inductive FieldValue where
  | zero
  | uint8 (v : Int)
  | int32 (v : Int)
  | float32 (bits : Int)
  | float64 (bits : Int)
  | string (s : List Int)
  deriving DecidableEq, Repr

/-- Go slice expression `b[i:j]` on a byte slice given by the bytes up to its capacity. -/
def byteSlice (b : List Int) (i j : Int) : Option (List Int) := sliceRange b i j

/-- One round of the loop of `unpack` for the table entry `v`: the record and the byte
cursor `bytecnt` afterwards; `none` is a panic (field index or slice bounds out of
range). `t` lists the kinds of the fields of the destination struct. -/
def unpackStep (t : List Kind) (b : List Int) (v : unpackTable)
    (st : List FieldValue × Int) : Option (List FieldValue × Int) :=
  let newval := st.1
  let bytecnt := st.2
  if v.TargetIndex < 0 then none
  else
    match t.get? v.TargetIndex.toNat with
    | none => none
    | some kind =>
      let i := v.TargetIndex.toNat
      if kind = Kind.Uint8 then
        (byteSlice b bytecnt (wrapInt (bytecnt + 1))).map fun bs =>
          (newval.set i (.uint8 (bs.headD 0)), wrapInt (bytecnt + 1))
      else if kind = Kind.Int32 then
        (byteSlice b bytecnt (wrapInt (bytecnt + 4))).map fun bs =>
          (newval.set i (.int32 (I32fb bs)), wrapInt (bytecnt + 4))
      else if kind = Kind.Float32 then
        (byteSlice b bytecnt (wrapInt (bytecnt + 4))).map fun bs =>
          (newval.set i (.float32 (littleEndian bs)), wrapInt (bytecnt + 4))
      else if kind = Kind.Float64 then
        (byteSlice b bytecnt (wrapInt (bytecnt + 8))).map fun bs =>
          (newval.set i (.float64 (littleEndian bs)), wrapInt (bytecnt + 4))
      else if kind = Kind.String then
        let stl := v.Len
        (byteSlice b bytecnt (wrapInt (bytecnt + stl))).map fun bs =>
          (newval.set i (.string (trimNul bs)), wrapInt (bytecnt + stl))
      else some (newval, bytecnt)

/-- The loop of `unpack` over the unpack table, from a record and cursor. -/
def unpackLoop (t : List Kind) (b : List Int) :
    List unpackTable → List FieldValue × Int → Option (List FieldValue × Int)
  | [], st => some st
  | v :: vs, st =>
    match unpackStep t b v st with
    | none => none
    | some st1 => unpackLoop t b vs st1

/-- Go `unpack`: the decoded record, or a panic. -/
def unpack (t : List Kind) (b : List Int) (metadata : CompoundAttributeMetadata) :
    Outcome (List FieldValue) :=
  match unpackLoop t b metadata.UT (t.map (fun _ => FieldValue.zero), 0) with
  | some st => .ok st.1
  | none => .panic

/-! ## `HdfStrSet.FromString` and `compoundAttrMetadata` -/

/-- Go `HdfStrSet.FromString`: the set afterwards and the returned error (nil is `none`);
only `sizes` is assigned. -/
def HdfStrSet.FromString (h : HdfStrSet) (s : String) : HdfStrSet × Option String :=
  match (splitComma s.toList).mapM Atoi with
  | none => (h, some "strconv.Atoi: parsing failed")
  | some sizes => ({ h with sizes := sizes }, none)

/-- Go `sum`. -/
def sum (array : List Int) : Int :=
  array.foldl (fun result v => wrapInt (result + v)) 0

/-- A field of the destination struct type as `reflect` shows it: its name, the kind of
its type, and the values of its `hdf` and `strlen` tags when present. -/
structure StructField where
  Name : String
  Kind : Kind
  hdf : Option String
  strlen : Option String
  deriving DecidableEq, Repr

/-- The loop of `compoundAttrMetadata` over the fields of the destination struct, at index
`j` with the metadata built so far; `none` is the return on a `strlen` tag that `Atoi`
refuses. -/
def fieldMetadataLoop :
    List StructField → Int → List FieldMetadata → Option (List FieldMetadata)
  | [], _, acc => some acc
  | f :: fs, j, acc =>
    match f.strlen with
    | none => fieldMetadataLoop fs (j + 1) (acc ++ [⟨f.Name, j, f.Kind, 0, f.hdf.getD ""⟩])
    | some strlen =>
      match Atoi strlen.toList with
      | none => none
      | some strsize =>
        fieldMetadataLoop fs (j + 1) (acc ++ [⟨f.Name, j, f.Kind, strsize, f.hdf.getD ""⟩])

/-- Go `compoundAttrMetadata`: the metadata and the returned error. `datatype` is the
result of `dset.Datatype()` with the member names of the compound type in order, `dest`
the fields of the destination struct, `TrimSpace` the function of package `strings`. -/
def compoundAttrMetadata (TrimSpace : String → String) (datatype : Except String (List String))
    (dest : List StructField) : CompoundAttributeMetadata × Option String :=
  match datatype with
  | .error err => (⟨0, [], [], []⟩, some err)
  | .ok members =>
    let names := members.map TrimSpace
    match fieldMetadataLoop dest 0 [] with
    | none => (⟨0, [], [], []⟩, some "Invalid string length")
    | some fieldMetadata =>
      CompoundAttributeMetadata.BuildUnpackTable ⟨members.length, names, fieldMetadata, []⟩

/-! ## The dataset behind an honest backend -/

/-- The row-major block of `rc` rows and `cc` columns at `(r0, c0)` of a row-major table
with `cols` columns. -/
def subBlock (cols : Nat) (cells : List Int) (r0 c0 rc cc : Nat) : List Int :=
  (List.range rc).flatMap fun i => (cells.drop ((r0 + i) * cols + c0)).take cc

/-- An in-memory backend holding a `rows` by `cols` table: it refuses a selection that is
empty or leaves the table, and reads fill the destination from the table. -/
def memLib (rows cols : Nat) (cells : List Int) : Hdf5Lib where
  SelectHyperslab := fun offset _ count _ =>
    match offset, count with
    | [r0, c0], [rc, cc] =>
      if rc = 0 ∨ cc = 0 ∨ r0 + rc > rows ∨ c0 + cc > cols then
        some "hyperslab selection out of bounds"
      else none
    | _, _ => some "rank mismatch"
  CreateSimpleDataspace := fun _ _ => none
  Read := fun dest => (⟨dest.kind, cells⟩, none)
  ReadSubset := fun dest offset count =>
    match offset, count with
    | [r0, c0], [rc, cc] => (⟨dest.kind, subBlock cols cells r0 c0 rc cc⟩, none)
    | _, _ => (dest, some "rank mismatch")

/-- A 4 by 3 table of `int32` with cells 0 to 11. -/
def exampleLib : Hdf5Lib := memLib 4 3 [0, 1, 2, 3, 4, 5, 6, 7, 8, 9, 10, 11]

/-- The synchronous reader opened on the 4 by 3 table. -/
def exampleReader : HdfReaderSync := ⟨Kind.Int32, [4, 3], ⟨[], 0⟩⟩

/-- Options of an incremental read along `dir` with window size `size`. -/
def incrementalOptions (dir size : Int) : HdfReadOptions :=
  ⟨Kind.Int32, ⟨[], 0⟩, true, dir, size, false, ""⟩

/-- A handle on the 4 by 3 table as `NewHdfDataset` creates it for incremental reads. -/
def exampleHandle (dir size : Int) : HdfDataset HdfReaderSync :=
  ⟨none, exampleReader, incrementalOptions dir size, [4, 3], ⟨0, -1⟩⟩

/-- A row-incremental handle with window size 2 on a dataset of the one-dimensional shape
`[4]`, as `NewHdfDataset` creates it. -/
def exampleHandle1D : HdfDataset HdfReaderSync :=
  ⟨none, ⟨Kind.Int32, [4], ⟨[], 0⟩⟩, incrementalOptions 0 2, [4], ⟨0, -1⟩⟩

/-- A backend that accepts every selection and on which every read of the dataset
fails. -/
def failingLib : Hdf5Lib where
  SelectHyperslab := fun _ _ _ _ => none
  CreateSimpleDataspace := fun _ _ => none
  Read := fun dest => (dest, some "read failed")
  ReadSubset := fun dest _ _ => (dest, some "read failed")

/-- An empty `[]int32` destination. -/
def exampleDest : Dest := .slice ⟨Kind.Int32, []⟩

/-- The operating system seen by the caller of a transfer when the worker runs
`handleAsync` / `AsyncHdfRead` on a dataset of shape `dims` behind the backend `lib`: the
worker reads its environment from the variables handed to it and, after its read, opens
the pipe and encodes `data.Data` (a nil `Data` is not encoded and the pipe is closed
empty, so the decoder of the caller ends with `EOF`); when the worker exits through
`log.Fatal` or a panic, or for an operation kind other than `DSET`, it has not opened the
pipe and `os.OpenFile` of the caller does not return. -/
def workerOS (lib : Hdf5Lib) (dims : List Nat) : AsyncOS where
  GetPipe := ("/workspaces/pipes/0", none)
  Getenv := fun key => if key = "HDFDUTILCMD" then "/usr/local/bin/hdfutil" else ""
  transfer := fun _ hdfType env dset =>
    if hdfType = "DSET" then
      match AsyncHdfRead lib (getenvIn env) dims with
      | .ok (some data) => .decoded data none
      | .ok none => .decoded dset (some "EOF")
      | .err _ => .blocked
      | .panic => .blocked
    else .blocked

/-- The operating system seen by the caller of a transfer when the process named by
`HDFDUTILCMD` opens the pipe and closes it before a complete value is written: `Decode`
returns the error `err` (`EOF` when nothing was written, `unexpected EOF` when the value
is cut short) and leaves the destination as it was. -/
def closedPipeOS (err : String) : AsyncOS where
  GetPipe := ("/workspaces/pipes/0", none)
  Getenv := fun key => if key = "HDFDUTILCMD" then "/usr/local/bin/hdfutil" else ""
  transfer := fun _ _ _ dset => .decoded dset (some err)

/-- An asynchronous reader on the 4 by 3 table, before any read. -/
def exampleAsync : HdfReaderAsync :=
  ⟨"/data/file.h5", "/table", ⟨Kind.Int32, ⟨[], 0⟩, false, 0, 0, false, ""⟩, [4, 3], ""⟩

/-- A handle on a string dataset of 2 rows with column widths 3, 5 and 2, fully read: the
rows are `abcDEFGHij` and `klmNOPQRst` as bytes. -/
def exampleStrings : HdfDataset HdfReaderSync :=
  ⟨some ⟨[2, 1], [2, 1], some ⟨Kind.Uint8,
      [97, 98, 99, 68, 69, 70, 71, 72, 105, 106,
       107, 108, 109, 78, 79, 80, 81, 82, 115, 116]⟩⟩,
    ⟨Kind.String, [2, 1], NewHdfStrSet [3, 5, 2]⟩,
    ⟨Kind.String, NewHdfStrSet [3, 5, 2], false, 0, 0, true, ""⟩, [2, 1], ⟨0, -1⟩⟩

/-- Destination struct with the fields `A float64` (`hdf:"a"`), `B uint8` (`hdf:"b"`) and
`C int32` (`hdf:"c"`). -/
def exampleStruct : List StructField :=
  [⟨"A", Kind.Float64, some "a", none⟩, ⟨"B", Kind.Uint8, some "b", none⟩,
    ⟨"C", Kind.Int32, some "c", none⟩]

/-- Destination struct `A float64` (tag `hdf:"a"`), `B uint8` (tag `hdf:"b"`) for a source
with members `a`, `b`, before `BuildUnpackTable`. -/
def exampleCam : CompoundAttributeMetadata :=
  ⟨2, ["a", "b"], [⟨"A", 0, Kind.Float64, 0, "a"⟩, ⟨"B", 1, Kind.Uint8, 0, "b"⟩], []⟩

end Hdf5utils

namespace Hdf5utils

/-! ## Theorems: the incremental window -/

variable {σ : Type}

/-- An `int` expression whose exact value is in range keeps that value. -/
theorem wrapInt_eq (x : Int) (h1 : -(2 ^ 63) ≤ x) (h2 : x < 2 ^ 63) : wrapInt x = x := by
  unfold wrapInt
  omega

/-- The conversion `int(u)` of an unsigned value below `2^63` keeps the value. -/
theorem wrapInt_natCast (n : Nat) (h : n < 2 ^ 63) : wrapInt (n : Int) = n := by
  unfold wrapInt
  omega

/-- `int(dims[i])` for an extent below `2^63`. -/
theorem dimAt_of_get (dims : List Nat) (i n : Nat) (hget : dims.get? i = some n)
    (hn : n < 2 ^ 63) : dimAt dims i = some (n : Int) := by
  unfold dimAt
  rw [hget]
  show some (wrapInt (n : Int)) = some (n : Int)
  rw [wrapInt_natCast n hn]

/-- Without wrap-around the window end computed by `readIncrementRow` and
`readIncrementColumn` is `min (i + W - 1) (E - 1)`. -/
theorem windowEnd_eq_min (i W E : Int) :
    (if i + W - 1 + 1 ≥ E then E - 1 else i + W - 1) = min (i + W - 1) (E - 1) := by
  split <;> omega

/-- The fetch branch of `readIncrementRow` in full, for extents below `2^63` and a window
end computed without wrap-around. -/
theorem readIncrementRow_unfold (R : HdfReader σ) (h : HdfDataset σ) (dest : Dest)
    (r : Int) (E cols : Nat) (hE : h.dsetdims.get? 0 = some E)
    (hC : h.dsetdims.get? 1 = some cols) (hEb : E < 2 ^ 63) (hCb : cols < 2 ^ 63)
    (hr : h.increment.end_ < r) (hlo : -(2 ^ 63) ≤ r + h.options.IncrementSize - 1)
    (hhi : r + h.options.IncrementSize < 2 ^ 63) :
    h.readIncrementRow R r dest =
      match R.ReadSubset h.Reader [r, min (r + h.options.IncrementSize - 1) ((E : Int) - 1)]
          [0, (cols : Int) - 1] with
      | (.ok data, s) =>
          ⟨{ h with Reader := s, Data := some data,
                    increment := ⟨r, min (r + h.options.IncrementSize - 1) ((E : Int) - 1)⟩ },
            HdfDataset.readVector
              { h with Reader := s, Data := some data,
                       increment := ⟨r, min (r + h.options.IncrementSize - 1) ((E : Int) - 1)⟩ }
              true 0 dest,
            [.ReadSubset [r, min (r + h.options.IncrementSize - 1) ((E : Int) - 1)]
              [0, (cols : Int) - 1]]⟩
      | (.err e, s) =>
          ⟨{ h with Reader := s }, .err e,
            [.ReadSubset [r, min (r + h.options.IncrementSize - 1) ((E : Int) - 1)]
              [0, (cols : Int) - 1]]⟩
      | (.panic, s) =>
          ⟨{ h with Reader := s }, .panic,
            [.ReadSubset [r, min (r + h.options.IncrementSize - 1) ((E : Int) - 1)]
              [0, (cols : Int) - 1]]⟩ := by
  have e1 : wrapInt (r + h.options.IncrementSize - 1) = r + h.options.IncrementSize - 1 :=
    wrapInt_eq _ hlo (by omega)
  have e2 : wrapInt (r + h.options.IncrementSize - 1 + 1) =
      r + h.options.IncrementSize - 1 + 1 := wrapInt_eq _ (by omega) (by omega)
  have e3 : wrapInt ((E : Int) - 1) = (E : Int) - 1 := wrapInt_eq _ (by omega) (by omega)
  have e4 : wrapInt ((cols : Int) - 1) = (cols : Int) - 1 :=
    wrapInt_eq _ (by omega) (by omega)
  have e5 : wrapInt (r - r) = 0 := by rw [sub_self]; rfl
  unfold HdfDataset.readIncrementRow
  simp only [gt_iff_lt, hr, if_true, dimAt_of_get _ _ _ hE hEb, dimAt_of_get _ _ _ hC hCb,
    e1, e2, e3, e4, e5, windowEnd_eq_min]

/-- The fetch branch of `readIncrementColumn` in full, for extents below `2^63` and a
window end computed without wrap-around. -/
theorem readIncrementColumn_unfold (R : HdfReader σ) (h : HdfDataset σ) (dest : Dest)
    (c : Int) (E rows : Nat) (hE : h.dsetdims.get? 1 = some E)
    (hR : h.dsetdims.get? 0 = some rows) (hEb : E < 2 ^ 63) (hRb : rows < 2 ^ 63)
    (hc : h.increment.end_ < c) (hlo : -(2 ^ 63) ≤ c + h.options.IncrementSize - 1)
    (hhi : c + h.options.IncrementSize < 2 ^ 63) :
    h.readIncrementColumn R c dest =
      match R.ReadSubset h.Reader [0, (rows : Int) - 1]
          [c, min (c + h.options.IncrementSize - 1) ((E : Int) - 1)] with
      | (.ok data, s) =>
          ⟨{ h with Reader := s, Data := some data,
                    increment := ⟨c, min (c + h.options.IncrementSize - 1) ((E : Int) - 1)⟩ },
            HdfDataset.readVector
              { h with Reader := s, Data := some data,
                       increment := ⟨c, min (c + h.options.IncrementSize - 1) ((E : Int) - 1)⟩ }
              false 0 dest,
            [.ReadSubset [0, (rows : Int) - 1]
              [c, min (c + h.options.IncrementSize - 1) ((E : Int) - 1)]]⟩
      | (.err e, s) =>
          ⟨{ h with Reader := s }, .err e,
            [.ReadSubset [0, (rows : Int) - 1]
              [c, min (c + h.options.IncrementSize - 1) ((E : Int) - 1)]]⟩
      | (.panic, s) =>
          ⟨{ h with Reader := s }, .panic,
            [.ReadSubset [0, (rows : Int) - 1]
              [c, min (c + h.options.IncrementSize - 1) ((E : Int) - 1)]]⟩ := by
  have e1 : wrapInt (c + h.options.IncrementSize - 1) = c + h.options.IncrementSize - 1 :=
    wrapInt_eq _ hlo (by omega)
  have e2 : wrapInt (c + h.options.IncrementSize - 1 + 1) =
      c + h.options.IncrementSize - 1 + 1 := wrapInt_eq _ (by omega) (by omega)
  have e3 : wrapInt ((E : Int) - 1) = (E : Int) - 1 := wrapInt_eq _ (by omega) (by omega)
  have e4 : wrapInt ((rows : Int) - 1) = (rows : Int) - 1 :=
    wrapInt_eq _ (by omega) (by omega)
  have e5 : wrapInt (c - c) = 0 := by rw [sub_self]; rfl
  unfold HdfDataset.readIncrementColumn
  simp only [gt_iff_lt, hc, if_true, dimAt_of_get _ _ _ hE hEb, dimAt_of_get _ _ _ hR hRb,
    e1, e2, e3, e4, e5, windowEnd_eq_min]

/-- C1 (as stated) fails on two kinds of handle. With `IncrementSize = 2^63 - 1` on the
4 by 3 table, `readIncrementRow(1)` computes `1 + W - 1 = 2^63 - 1`, the test
`rowend + 1 >= 4` wraps around to a negative number, and the call issued is
`ReadSubset [1, 2^63 - 1] [0, 2]`, not `[1, min (1 + W - 1) 3] = [1, 3]`. On a handle with
the one-dimensional shape `[4]`, for which `Cols()` is 1, `readIncrementRow(1)` panics on
`dsetdims[1]` and issues no call. -/
theorem C1_window_end_wraps_around :
    ((exampleHandle 0 9223372036854775807).readIncrementRow
        (HdfReaderSync.asReader exampleLib) 1 exampleDest).calls =
        [.ReadSubset [1, 9223372036854775807] [0, 2]] ∧
      min ((1 : Int) + (exampleHandle 0 9223372036854775807).options.IncrementSize - 1)
        (4 - 1) = 3 ∧
      exampleHandle1D.Cols = 1 ∧
      (exampleHandle1D.readIncrementRow (HdfReaderSync.asReader exampleLib) 1
        exampleDest).calls = [] ∧
      (exampleHandle1D.readIncrementRow (HdfReaderSync.asReader exampleLib) 1
        exampleDest).out = .panic := by
  refine ⟨?_, ?_, ?_, ?_, ?_⟩ <;> decide

/-- C1 (amended): for a row-incremental handle whose shape has the row extent `E` and the
column extent `cols`, both below `2^63`, with window size `W`, and a requested row `r`
with `end < r < E` for which `r + W - 1` and `r + W` are in the range of `int`,
`readIncrementRow` issues exactly one reader call, `ReadSubset [r, min (r+W-1) (E-1)]
[0, cols-1]`; when that call succeeds the window becomes exactly that row range and `Data`
the returned data, so the window end is at most `E - 1` and, when `r + W - 1 ≥ E`, the
window has size `E - r`. The same holds for `readIncrementColumn` with rows and columns
swapped. -/
theorem C1_readIncrement_window (R : HdfReader σ) (h : HdfDataset σ) (dest : Dest) :
    (∀ (r : Int) (E cols : Nat), h.dsetdims.get? 0 = some E → h.dsetdims.get? 1 = some cols →
      E < 2 ^ 63 → cols < 2 ^ 63 → h.increment.end_ < r → r < E →
      -(2 ^ 63) ≤ r + h.options.IncrementSize - 1 → r + h.options.IncrementSize < 2 ^ 63 →
      (h.readIncrementRow R r dest).calls =
          [.ReadSubset [r, min (r + h.options.IncrementSize - 1) ((E : Int) - 1)]
            [0, (cols : Int) - 1]] ∧
        ∀ data s,
          R.ReadSubset h.Reader [r, min (r + h.options.IncrementSize - 1) ((E : Int) - 1)]
              [0, (cols : Int) - 1] = (.ok data, s) →
          (h.readIncrementRow R r dest).handle.increment =
              ⟨r, min (r + h.options.IncrementSize - 1) ((E : Int) - 1)⟩ ∧
            (h.readIncrementRow R r dest).handle.Data = some data ∧
            (h.readIncrementRow R r dest).handle.increment.end_ ≤ (E : Int) - 1 ∧
            (r + h.options.IncrementSize - 1 ≥ E →
              (h.readIncrementRow R r dest).handle.increment.end_ -
                (h.readIncrementRow R r dest).handle.increment.start + 1 = E - r)) ∧
    (∀ (c : Int) (E rows : Nat), h.dsetdims.get? 1 = some E → h.dsetdims.get? 0 = some rows →
      E < 2 ^ 63 → rows < 2 ^ 63 → h.increment.end_ < c → c < E →
      -(2 ^ 63) ≤ c + h.options.IncrementSize - 1 → c + h.options.IncrementSize < 2 ^ 63 →
      (h.readIncrementColumn R c dest).calls =
          [.ReadSubset [0, (rows : Int) - 1]
            [c, min (c + h.options.IncrementSize - 1) ((E : Int) - 1)]] ∧
        ∀ data s,
          R.ReadSubset h.Reader [0, (rows : Int) - 1]
              [c, min (c + h.options.IncrementSize - 1) ((E : Int) - 1)] = (.ok data, s) →
          (h.readIncrementColumn R c dest).handle.increment =
              ⟨c, min (c + h.options.IncrementSize - 1) ((E : Int) - 1)⟩ ∧
            (h.readIncrementColumn R c dest).handle.Data = some data ∧
            (h.readIncrementColumn R c dest).handle.increment.end_ ≤ (E : Int) - 1 ∧
            (c + h.options.IncrementSize - 1 ≥ E →
              (h.readIncrementColumn R c dest).handle.increment.end_ -
                (h.readIncrementColumn R c dest).handle.increment.start + 1 = E - c)) := by
  constructor
  · intro r E cols hE hC hEb hCb hr _ hlo hhi
    rw [readIncrementRow_unfold R h dest r E cols hE hC hEb hCb hr hlo hhi]
    constructor
    · split <;> rfl
    · intro data s hs
      rw [hs]
      refine ⟨rfl, rfl, min_le_right _ _, ?_⟩
      intro hge
      simp only
      omega
  · intro c E rows hE hR hEb hRb hc _ hlo hhi
    rw [readIncrementColumn_unfold R h dest c E rows hE hR hEb hRb hc hlo hhi]
    constructor
    · split <;> rfl
    · intro data s hs
      rw [hs]
      refine ⟨rfl, rfl, min_le_right _ _, ?_⟩
      intro hge
      simp only
      omega

/-- Instance of C1 (amended) on the 4 by 3 table with window size 2: row 3 of a fresh
row-incremental handle fetches rows `[3, 3]`, column 2 of a fresh column-incremental
handle fetches columns `[2, 2]`. -/
theorem C1_readIncrement_window_witness :
    ((exampleHandle 0 2).increment.end_ < 3 ∧
      ((exampleHandle 0 2).readIncrementRow (HdfReaderSync.asReader exampleLib) 3
          exampleDest).calls = [.ReadSubset [3, 3] [0, 2]] ∧
      ((exampleHandle 0 2).readIncrementRow (HdfReaderSync.asReader exampleLib) 3
          exampleDest).handle.increment = ⟨3, 3⟩ ∧
      ((exampleHandle 0 2).readIncrementRow (HdfReaderSync.asReader exampleLib) 3
          exampleDest).handle.Data = some ⟨[4, 3], [1, 3], some ⟨Kind.Int32, [9, 10, 11]⟩⟩) ∧
    ((exampleHandle 1 2).increment.end_ < 2 ∧
      ((exampleHandle 1 2).readIncrementColumn (HdfReaderSync.asReader exampleLib) 2
          exampleDest).calls = [.ReadSubset [0, 3] [2, 2]] ∧
      ((exampleHandle 1 2).readIncrementColumn (HdfReaderSync.asReader exampleLib) 2
          exampleDest).handle.increment = ⟨2, 2⟩ ∧
      ((exampleHandle 1 2).readIncrementColumn (HdfReaderSync.asReader exampleLib) 2
          exampleDest).handle.Data =
        some ⟨[4, 3], [4, 1], some ⟨Kind.Int32, [2, 5, 8, 11]⟩⟩) := by
  have hrow := (C1_readIncrement_window (HdfReaderSync.asReader exampleLib)
    (exampleHandle 0 2) exampleDest).1 3 4 3 rfl rfl (by decide) (by decide) (by decide)
    (by decide) (by decide) (by decide)
  have hcol := (C1_readIncrement_window (HdfReaderSync.asReader exampleLib)
    (exampleHandle 1 2) exampleDest).2 2 3 4 rfl rfl (by decide) (by decide) (by decide)
    (by decide) (by decide) (by decide)
  have hrow2 := hrow.2 ⟨[4, 3], [1, 3], some ⟨Kind.Int32, [9, 10, 11]⟩⟩ exampleReader rfl
  have hcol2 := hcol.2 ⟨[4, 3], [4, 1], some ⟨Kind.Int32, [2, 5, 8, 11]⟩⟩ exampleReader rfl
  exact ⟨⟨by decide, hrow.1, hrow2.1, hrow2.2.1⟩, ⟨by decide, hcol.1, hcol2.1, hcol2.2.1⟩⟩

/-- C2: on the 4 by 3 table with window size 2, after `ReadRow(2)` has fetched the window
`[2, 3]`, `ReadRow(0)` (an index below the window start) issues no reader call, leaves the
window at `[2, 3]` and panics on the negative offset; `ReadColumn(0)` after
`ReadColumn(1)` on a column-incremental handle does the same with window `[1, 2]`. -/
theorem C2_below_window_not_refetched :
    (((exampleHandle 0 2).ReadRow (HdfReaderSync.asReader exampleLib) id 2
        exampleDest).handle.increment = ⟨2, 3⟩ ∧
      ((((exampleHandle 0 2).ReadRow (HdfReaderSync.asReader exampleLib) id 2
        exampleDest).handle).ReadRow (HdfReaderSync.asReader exampleLib) id 0
        exampleDest).calls = [] ∧
      ((((exampleHandle 0 2).ReadRow (HdfReaderSync.asReader exampleLib) id 2
        exampleDest).handle).ReadRow (HdfReaderSync.asReader exampleLib) id 0
        exampleDest).handle.increment = ⟨2, 3⟩ ∧
      ((((exampleHandle 0 2).ReadRow (HdfReaderSync.asReader exampleLib) id 2
        exampleDest).handle).ReadRow (HdfReaderSync.asReader exampleLib) id 0
        exampleDest).out = .panic) ∧
    (((exampleHandle 1 2).ReadColumn (HdfReaderSync.asReader exampleLib) 1
        exampleDest).handle.increment = ⟨1, 2⟩ ∧
      ((((exampleHandle 1 2).ReadColumn (HdfReaderSync.asReader exampleLib) 1
        exampleDest).handle).ReadColumn (HdfReaderSync.asReader exampleLib) 0
        exampleDest).calls = [] ∧
      ((((exampleHandle 1 2).ReadColumn (HdfReaderSync.asReader exampleLib) 1
        exampleDest).handle).ReadColumn (HdfReaderSync.asReader exampleLib) 0
        exampleDest).handle.increment = ⟨1, 2⟩ ∧
      ((((exampleHandle 1 2).ReadColumn (HdfReaderSync.asReader exampleLib) 1
        exampleDest).handle).ReadColumn (HdfReaderSync.asReader exampleLib) 0
        exampleDest).out = .panic) := by
  refine ⟨⟨?_, ?_, ?_, ?_⟩, ⟨?_, ?_, ?_, ?_⟩⟩ <;> decide

/-! ## Theorems: reader errors and re-reads -/

/-- When `readIncrementRow` issues the call `ReadSubset rr cr` and the reader answers it
with an error, that error is returned and `Data`, `dsetdims` and the window are kept. -/
theorem readIncrementRow_error (R : HdfReader σ) (h : HdfDataset σ) (r : Int) (dest : Dest)
    (rr cr : List Int) (e : String) (s : σ)
    (hcall : (h.readIncrementRow R r dest).calls = [.ReadSubset rr cr])
    (herr : R.ReadSubset h.Reader rr cr = (.err e, s)) :
    (h.readIncrementRow R r dest).out = .err e ∧
      (h.readIncrementRow R r dest).handle.Data = h.Data ∧
      (h.readIncrementRow R r dest).handle.dsetdims = h.dsetdims ∧
      (h.readIncrementRow R r dest).handle.increment = h.increment := by
  unfold HdfDataset.readIncrementRow at hcall ⊢
  by_cases hif : r > h.increment.end_
  · simp only [hif, if_true] at hcall ⊢
    cases hd0 : dimAt h.dsetdims 0 with
    | none => simp [hd0] at hcall
    | some d0 =>
      simp only [hd0] at hcall ⊢
      cases hd1 : dimAt h.dsetdims 1 with
      | none => simp [hd1] at hcall
      | some d1 =>
        simp only [hd1] at hcall ⊢
        have hargs : ∀ o : Ret σ Dest, o.calls = [.ReadSubset rr cr] →
            ∀ a b, o.calls = [.ReadSubset a b] → a = rr ∧ b = cr := by
          intro o h1 a b h2
          rw [h1] at h2
          simp only [List.cons.injEq, ReaderCall.ReadSubset.injEq, and_true] at h2
          exact ⟨h2.1.symm, h2.2.symm⟩
        split at hcall <;> rename_i heq
        · obtain ⟨h1, h2⟩ := hargs _ hcall _ _ rfl
          rw [h1, h2, herr] at heq
          simp at heq
        · obtain ⟨h1, h2⟩ := hargs _ hcall _ _ rfl
          rw [h1, h2, herr] at heq
          simp only [Prod.mk.injEq, Outcome.err.injEq] at heq
          simp only [heq.1, and_self]
        · obtain ⟨h1, h2⟩ := hargs _ hcall _ _ rfl
          rw [h1, h2, herr] at heq
          simp at heq
  · simp [hif] at hcall

/-- When `readIncrementColumn` issues the call `ReadSubset rr cr` and the reader answers it
with an error, that error is returned and `Data`, `dsetdims` and the window are kept. -/
theorem readIncrementColumn_error (R : HdfReader σ) (h : HdfDataset σ) (c : Int)
    (dest : Dest) (rr cr : List Int) (e : String) (s : σ)
    (hcall : (h.readIncrementColumn R c dest).calls = [.ReadSubset rr cr])
    (herr : R.ReadSubset h.Reader rr cr = (.err e, s)) :
    (h.readIncrementColumn R c dest).out = .err e ∧
      (h.readIncrementColumn R c dest).handle.Data = h.Data ∧
      (h.readIncrementColumn R c dest).handle.dsetdims = h.dsetdims ∧
      (h.readIncrementColumn R c dest).handle.increment = h.increment := by
  unfold HdfDataset.readIncrementColumn at hcall ⊢
  by_cases hif : c > h.increment.end_
  · simp only [hif, if_true] at hcall ⊢
    cases hd0 : dimAt h.dsetdims 1 with
    | none => simp [hd0] at hcall
    | some d0 =>
      simp only [hd0] at hcall ⊢
      cases hd1 : dimAt h.dsetdims 0 with
      | none => simp [hd1] at hcall
      | some d1 =>
        simp only [hd1] at hcall ⊢
        have hargs : ∀ o : Ret σ Dest, o.calls = [.ReadSubset rr cr] →
            ∀ a b, o.calls = [.ReadSubset a b] → a = rr ∧ b = cr := by
          intro o h1 a b h2
          rw [h1] at h2
          simp only [List.cons.injEq, ReaderCall.ReadSubset.injEq, and_true] at h2
          exact ⟨h2.1.symm, h2.2.symm⟩
        split at hcall <;> rename_i heq
        · obtain ⟨h1, h2⟩ := hargs _ hcall _ _ rfl
          rw [h1, h2, herr] at heq
          simp at heq
        · obtain ⟨h1, h2⟩ := hargs _ hcall _ _ rfl
          rw [h1, h2, herr] at heq
          simp only [Prod.mk.injEq, Outcome.err.injEq] at heq
          simp only [heq.1, and_self]
        · obtain ⟨h1, h2⟩ := hargs _ hcall _ _ rfl
          rw [h1, h2, herr] at heq
          simp at heq
  · simp [hif] at hcall

/-- C5: when the reader answers `Read` or `ReadSubset` with an error, `HdfDataset.Read` and
`HdfDataset.ReadSubset` return that same error, and so do `ReadRow` and `ReadColumn` for
the `ReadSubset` call they issue; in each case `Data`, `dsetdims` and the window are
exactly as before the call. -/
theorem C5_reader_error_surfaced (R : HdfReader σ) (TrimSpace : List Int → List Int)
    (h : HdfDataset σ) :
    (∀ e s, R.Read h.Reader = (.err e, s) →
      (h.Read R).out = .err e ∧ (h.Read R).handle.Data = h.Data ∧
        (h.Read R).handle.dsetdims = h.dsetdims ∧
        (h.Read R).handle.increment = h.increment) ∧
    (∀ rr cr e s, R.ReadSubset h.Reader rr cr = (.err e, s) →
      (h.ReadSubset R rr cr).out = .err e ∧ (h.ReadSubset R rr cr).handle.Data = h.Data ∧
        (h.ReadSubset R rr cr).handle.dsetdims = h.dsetdims ∧
        (h.ReadSubset R rr cr).handle.increment = h.increment) ∧
    (∀ r dest rr cr e s, (h.ReadRow R TrimSpace r dest).calls = [.ReadSubset rr cr] →
      R.ReadSubset h.Reader rr cr = (.err e, s) →
      (h.ReadRow R TrimSpace r dest).out = .err e ∧
        (h.ReadRow R TrimSpace r dest).handle.Data = h.Data ∧
        (h.ReadRow R TrimSpace r dest).handle.dsetdims = h.dsetdims ∧
        (h.ReadRow R TrimSpace r dest).handle.increment = h.increment) ∧
    (∀ c dest rr cr e s, (h.ReadColumn R c dest).calls = [.ReadSubset rr cr] →
      R.ReadSubset h.Reader rr cr = (.err e, s) →
      (h.ReadColumn R c dest).out = .err e ∧
        (h.ReadColumn R c dest).handle.Data = h.Data ∧
        (h.ReadColumn R c dest).handle.dsetdims = h.dsetdims ∧
        (h.ReadColumn R c dest).handle.increment = h.increment) := by
  refine ⟨?_, ?_, ?_, ?_⟩
  · intro e s herr
    simp [HdfDataset.Read, herr]
  · intro rr cr e s herr
    simp [HdfDataset.ReadSubset, herr]
  · intro r dest rr cr e s hcall herr
    unfold HdfDataset.ReadRow at hcall ⊢
    by_cases hinc : h.options.IncrementalRead = true
    · by_cases hdir : h.options.IncrementalReadDir = 0
      · simp only [hinc, hdir, if_true, ne_eq, not_true_eq_false, if_false] at hcall ⊢
        exact readIncrementRow_error R h r dest rr cr e s hcall herr
      · simp [hinc, hdir] at hcall
    · by_cases hstr : h.options.Dtype = Kind.String <;> simp [hinc, hstr] at hcall
  · intro c dest rr cr e s hcall herr
    unfold HdfDataset.ReadColumn at hcall ⊢
    by_cases hinc : h.options.IncrementalRead = true
    · by_cases hdir : h.options.IncrementalReadDir = 1
      · simp only [hinc, hdir, if_true, ne_eq, not_true_eq_false, if_false] at hcall ⊢
        exact readIncrementColumn_error R h c dest rr cr e s hcall herr
      · simp [hinc, hdir] at hcall
    · simp [hinc] at hcall

/-- Instance of C5 on a backend whose reads fail: `ReadRow(1)` on a fresh row-incremental
handle issues `ReadSubset [1, 2] [0, 2]`, returns the backend error and keeps the nil
`Data` and the empty window. -/
theorem C5_reader_error_surfaced_witness :
    ((exampleHandle 0 2).ReadRow (HdfReaderSync.asReader failingLib) id 1 exampleDest).calls =
        [.ReadSubset [1, 2] [0, 2]] ∧
      ((exampleHandle 0 2).ReadRow (HdfReaderSync.asReader failingLib) id 1 exampleDest).out =
        .err "read failed" ∧
      ((exampleHandle 0 2).ReadRow (HdfReaderSync.asReader failingLib) id 1
        exampleDest).handle.Data = none ∧
      ((exampleHandle 0 2).ReadRow (HdfReaderSync.asReader failingLib) id 1
        exampleDest).handle.increment = ⟨0, -1⟩ := by
  have hrow := (C5_reader_error_surfaced (HdfReaderSync.asReader failingLib) id
    (exampleHandle 0 2)).2.2.1 1 exampleDest [1, 2] [0, 2] "read failed" exampleReader
    (by decide) rfl
  exact ⟨by decide, hrow.1, hrow.2.1, hrow.2.2.2⟩

/-- A read inside the window: `ReadRow` on a row-incremental handle returns the handle as
it was and issues no call. -/
theorem ReadRow_in_window (R : HdfReader σ) (TrimSpace : List Int → List Int)
    (h : HdfDataset σ) (i : Int) (dest : Dest) (hinc : h.options.IncrementalRead = true)
    (hdir : h.options.IncrementalReadDir = 0) (hhi : i ≤ h.increment.end_) :
    h.ReadRow R TrimSpace i dest =
      ⟨h, h.readVector true (wrapInt (i - h.increment.start)) dest, []⟩ := by
  simp [HdfDataset.ReadRow, HdfDataset.readIncrementRow, hinc, hdir, not_lt.mpr hhi]

/-- A read inside the window: `ReadColumn` on a column-incremental handle returns the
handle as it was and issues no call. -/
theorem ReadColumn_in_window (R : HdfReader σ) (h : HdfDataset σ) (i : Int) (dest : Dest)
    (hinc : h.options.IncrementalRead = true) (hdir : h.options.IncrementalReadDir = 1)
    (hhi : i ≤ h.increment.end_) :
    h.ReadColumn R i dest =
      ⟨h, h.readVector false (wrapInt (i - h.increment.start)) dest, []⟩ := by
  simp [HdfDataset.ReadColumn, HdfDataset.readIncrementColumn, hinc, hdir, not_lt.mpr hhi]

/-- C8: on an incremental handle with window `[start, end]` and an index `i` with
`start ≤ i ≤ end`, `ReadRow(i)` on a row-incremental handle (`ReadColumn(i)` on a
column-incremental one) issues no reader call and returns the handle unchanged (`Data` and
window included), and so does any number `n` of repetitions. -/
theorem C8_reread_within_window (R : HdfReader σ) (TrimSpace : List Int → List Int)
    (h : HdfDataset σ) (i : Int) (dest : Dest) (n : Nat)
    (hinc : h.options.IncrementalRead = true) (hlo : h.increment.start ≤ i)
    (hhi : i ≤ h.increment.end_) :
    (h.options.IncrementalReadDir = 0 →
      (h.ReadRow R TrimSpace i dest).calls = [] ∧
        (h.ReadRow R TrimSpace i dest).handle = h ∧
        (h.run R TrimSpace (List.replicate n (.ReadRow i dest))).1 = h ∧
        (h.run R TrimSpace (List.replicate n (.ReadRow i dest))).2.2 = []) ∧
    (h.options.IncrementalReadDir = 1 →
      (h.ReadColumn R i dest).calls = [] ∧
        (h.ReadColumn R i dest).handle = h ∧
        (h.run R TrimSpace (List.replicate n (.ReadColumn i dest))).1 = h ∧
        (h.run R TrimSpace (List.replicate n (.ReadColumn i dest))).2.2 = []) := by
  have _ := hlo
  constructor
  · intro hdir
    have hrow := ReadRow_in_window R TrimSpace h i dest hinc hdir hhi
    refine ⟨by rw [hrow], by rw [hrow], ?_⟩
    induction n with
    | zero => exact ⟨rfl, rfl⟩
    | succ k ih =>
      simp only [List.replicate_succ, HdfDataset.run, HdfDataset.step, hrow, List.nil_append]
      exact ih
  · intro hdir
    have hcol := ReadColumn_in_window R h i dest hinc hdir hhi
    refine ⟨by rw [hcol], by rw [hcol], ?_⟩
    induction n with
    | zero => exact ⟨rfl, rfl⟩
    | succ k ih =>
      simp only [List.replicate_succ, HdfDataset.run, HdfDataset.step, hcol, List.nil_append]
      exact ih

/-- Instance of C8 on the 4 by 3 table: after `ReadRow(2)` fetched the window `[2, 3]`,
five reads of row 3 issue no reader call and keep the handle. -/
theorem C8_reread_within_window_witness :
    (((exampleHandle 0 2).ReadRow (HdfReaderSync.asReader exampleLib) id 2
        exampleDest).handle.increment = ⟨2, 3⟩) ∧
      ((((exampleHandle 0 2).ReadRow (HdfReaderSync.asReader exampleLib) id 2
        exampleDest).handle).run (HdfReaderSync.asReader exampleLib) id
          (List.replicate 5 (.ReadRow 3 exampleDest))).2.2 = [] ∧
      ((((exampleHandle 0 2).ReadRow (HdfReaderSync.asReader exampleLib) id 2
        exampleDest).handle).run (HdfReaderSync.asReader exampleLib) id
          (List.replicate 5 (.ReadRow 3 exampleDest))).1 =
        ((exampleHandle 0 2).ReadRow (HdfReaderSync.asReader exampleLib) id 2
          exampleDest).handle := by
  have hrow := (C8_reread_within_window (HdfReaderSync.asReader exampleLib) id
    ((exampleHandle 0 2).ReadRow (HdfReaderSync.asReader exampleLib) id 2 exampleDest).handle
    3 exampleDest 5 rfl (by decide) (by decide)).1 rfl
  exact ⟨by decide, hrow.2.2.2, hrow.2.2.1⟩

/-! ## Theorems: the shape returned by `Dims()` -/

/-- `ReadRow` never changes `dsetdims`. -/
theorem ReadRow_dsetdims (R : HdfReader σ) (TrimSpace : List Int → List Int)
    (h : HdfDataset σ) (r : Int) (dest : Dest) :
    (h.ReadRow R TrimSpace r dest).handle.dsetdims = h.dsetdims := by
  unfold HdfDataset.ReadRow HdfDataset.readIncrementRow
  repeat' (first | split | dsimp only)

/-- `ReadColumn` never changes `dsetdims`. -/
theorem ReadColumn_dsetdims (R : HdfReader σ) (h : HdfDataset σ) (c : Int) (dest : Dest) :
    (h.ReadColumn R c dest).handle.dsetdims = h.dsetdims := by
  unfold HdfDataset.ReadColumn HdfDataset.readIncrementColumn
  repeat' (first | split | dsimp only)

/-- `ReadRow` on the synchronous reader never changes the reader. -/
theorem ReadRow_sync_reader (lib : Hdf5Lib) (TrimSpace : List Int → List Int)
    (h : HdfDataset HdfReaderSync) (r : Int) (dest : Dest) :
    (h.ReadRow (HdfReaderSync.asReader lib) TrimSpace r dest).handle.Reader = h.Reader := by
  unfold HdfDataset.ReadRow HdfDataset.readIncrementRow
  simp only [HdfReaderSync.asReader]
  repeat' (first | split | dsimp only)
  all_goals simp_all

/-- `ReadColumn` on the synchronous reader never changes the reader. -/
theorem ReadColumn_sync_reader (lib : Hdf5Lib) (h : HdfDataset HdfReaderSync) (c : Int)
    (dest : Dest) :
    (h.ReadColumn (HdfReaderSync.asReader lib) c dest).handle.Reader = h.Reader := by
  unfold HdfDataset.ReadColumn HdfDataset.readIncrementColumn
  simp only [HdfReaderSync.asReader]
  repeat' (first | split | dsimp only)
  all_goals simp_all

/-- The data returned by `HdfReaderSync.Read` reports the shape of the reader. -/
theorem sync_Read_dims (lib : Hdf5Lib) (rd : HdfReaderSync) (data : HdfData)
    (hok : rd.Read lib = .ok data) : data.Dims = rd.dims := by
  unfold HdfReaderSync.Read at hok
  split at hok
  · split at hok
    · simp at hok
    · simp only [Outcome.ok.injEq] at hok
      rw [← hok]
  · simp at hok
  · simp at hok

/-- `HdfDataset.Read` on the synchronous reader keeps the reader, and keeps `dsetdims`
when it is the shape of the reader. -/
theorem Read_sync (lib : Hdf5Lib) (h : HdfDataset HdfReaderSync)
    (hc : h.Reader.dims = h.dsetdims) :
    (h.Read (HdfReaderSync.asReader lib)).handle.Reader = h.Reader ∧
      (h.Read (HdfReaderSync.asReader lib)).handle.dsetdims = h.dsetdims := by
  unfold HdfDataset.Read
  simp only [HdfReaderSync.asReader]
  cases hres : h.Reader.Read lib with
  | ok data => exact ⟨rfl, (sync_Read_dims lib h.Reader data hres).trans hc⟩
  | err e => exact ⟨rfl, rfl⟩
  | panic => exact ⟨rfl, rfl⟩

/-- A sequence of calls without `ReadSubset` on a handle of the synchronous reader whose
`dsetdims` is the shape of the reader keeps `dsetdims`. -/
theorem run_sync_dsetdims (lib : Hdf5Lib) (TrimSpace : List Int → List Int) (ops : List Op) :
    ∀ h : HdfDataset HdfReaderSync, h.Reader.dims = h.dsetdims →
      (∀ op ∈ ops, ∀ rr cr, op ≠ .ReadSubset rr cr) →
      (h.run (HdfReaderSync.asReader lib) TrimSpace ops).1.dsetdims = h.dsetdims := by
  induction ops with
  | nil => intro h _ _; rfl
  | cons op ops ih =>
    intro h hc hops
    have hstep : (h.step (HdfReaderSync.asReader lib) TrimSpace op).1.Reader = h.Reader ∧
        (h.step (HdfReaderSync.asReader lib) TrimSpace op).1.dsetdims = h.dsetdims := by
      cases op with
      | Read => exact Read_sync lib h hc
      | ReadSubset rr cr => exact absurd rfl (hops _ (List.mem_cons_self _ _) rr cr)
      | ReadRow r dest =>
        exact ⟨ReadRow_sync_reader lib TrimSpace h r dest, ReadRow_dsetdims _ _ h r dest⟩
      | ReadColumn c dest =>
        exact ⟨ReadColumn_sync_reader lib h c dest, ReadColumn_dsetdims _ h c dest⟩
    simp only [HdfDataset.run]
    rw [ih _ (by rw [hstep.1, hstep.2]; exact hc)
      (fun o ho => hops o (List.mem_cons_of_mem _ ho)), hstep.2]

/-- The data returned by `HdfReaderSync.ReadSubset` has the counts computed from the
ranges as its shape. -/
theorem sync_ReadSubset_dims (lib : Hdf5Lib) (rd : HdfReaderSync) (rr cr : List Int)
    (data : HdfData) (hok : rd.ReadSubset lib rr cr = .ok data) :
    ∃ r0 r1 c0 c1 rt ct, rr = r0 :: r1 :: rt ∧ cr = c0 :: c1 :: ct ∧
      data.Dims = [(toUint (r1 - r0) + 1) % 2 ^ 64, (toUint (c1 - c0) + 1) % 2 ^ 64] := by
  unfold HdfReaderSync.ReadSubset at hok
  split at hok
  · rename_i dims hmem
    have hshape : ∃ r0 r1 c0 c1 rt ct, rr = r0 :: r1 :: rt ∧ cr = c0 :: c1 :: ct ∧
        dims = [(toUint (r1 - r0) + 1) % 2 ^ 64, (toUint (c1 - c0) + 1) % 2 ^ 64] := by
      unfold HdfReaderSync.getMemspace at hmem
      split at hmem
      · rename_i r0 r1 rt c0 c1 ct
        refine ⟨r0, r1, c0, c1, rt, ct, rfl, rfl, ?_⟩
        simp only at hmem
        split at hmem
        · simp at hmem
        · split at hmem
          · simp at hmem
          · simp only [Outcome.ok.injEq] at hmem
            exact hmem.symm
      · simp at hmem
    obtain ⟨r0, r1, c0, c1, rt, ct, hrr, hcr, hdims⟩ := hshape
    refine ⟨r0, r1, c0, c1, rt, ct, hrr, hcr, ?_⟩
    split at hok
    · split at hok
      · simp at hok
      · simp only [Outcome.ok.injEq] at hok
        rw [← hok, hdims]
    · simp at hok
    · simp at hok
  · simp at hok
  · simp at hok

/-- C7 (as stated) fails: the handle created on the 4 by 3 table reports `Dims() = [4, 3]`,
and after the successful `ReadSubset([0, 1], [0, 2])` it reports `[2, 3]`. -/
theorem C7_ReadSubset_changes_Dims :
    NewHdfDataset exampleLib exampleReader (incrementalOptions 0 2) =
        .ok (exampleHandle 0 2) ∧
      (exampleHandle 0 2).Dims = [4, 3] ∧
      ((exampleHandle 0 2).ReadSubset (HdfReaderSync.asReader exampleLib) [0, 1] [0, 2]).out =
        .ok () ∧
      ((exampleHandle 0 2).ReadSubset (HdfReaderSync.asReader exampleLib) [0, 1]
        [0, 2]).handle.Dims = [2, 3] := by
  refine ⟨rfl, rfl, ?_, ?_⟩ <;> decide

/-- C7 (amended): on a handle as `NewHdfDataset` creates it (the synchronous reader, with
`dsetdims` the shape of the reader), every sequence of `Read`, `ReadRow` and `ReadColumn`
calls keeps `Dims()` at the shape recorded at creation, and a successful
`HdfDataset.ReadSubset` sets `Dims()` to the shape of the sub-range read, the counts
`uint(range[1] - range[0]) + 1` of its two ranges. -/
theorem C7_Dims_kept_except_by_ReadSubset (lib : Hdf5Lib) (TrimSpace : List Int → List Int)
    (h : HdfDataset HdfReaderSync) (hcreate : h.Reader.dims = h.dsetdims) :
    (∀ ops : List Op, (∀ op ∈ ops, ∀ rr cr, op ≠ .ReadSubset rr cr) →
      (h.run (HdfReaderSync.asReader lib) TrimSpace ops).1.Dims = h.Dims) ∧
    (∀ rr cr, (h.ReadSubset (HdfReaderSync.asReader lib) rr cr).out = .ok () →
      ∃ r0 r1 c0 c1 rt ct, rr = r0 :: r1 :: rt ∧ cr = c0 :: c1 :: ct ∧
        (h.ReadSubset (HdfReaderSync.asReader lib) rr cr).handle.Dims =
          [(toUint (r1 - r0) + 1) % 2 ^ 64, (toUint (c1 - c0) + 1) % 2 ^ 64]) ∧
    (∀ (reader : HdfReaderSync) (options : HdfReadOptions) (h0 : HdfDataset HdfReaderSync),
      NewHdfDataset lib reader options = .ok h0 →
      h0.Reader.dims = h0.dsetdims ∧ h0.Dims = reader.dims) := by
  refine ⟨?_, ?_, ?_⟩
  · intro ops hops
    exact run_sync_dsetdims lib TrimSpace ops h hcreate hops
  · intro rr cr hok
    unfold HdfDataset.ReadSubset at hok ⊢
    simp only [HdfReaderSync.asReader] at hok ⊢
    cases hres : h.Reader.ReadSubset lib rr cr with
    | ok data =>
      obtain ⟨r0, r1, c0, c1, rt, ct, hrr, hcr, hdims⟩ :=
        sync_ReadSubset_dims lib h.Reader rr cr data hres
      exact ⟨r0, r1, c0, c1, rt, ct, hrr, hcr, hdims⟩
    | err e => simp [hres] at hok
    | panic => simp [hres] at hok
  · intro reader options h0 hnew
    unfold NewHdfDataset at hnew
    simp only at hnew
    split at hnew
    · split at hnew
      · simp only [Outcome.ok.injEq] at hnew
        rw [← hnew]
        exact ⟨rfl, rfl⟩
      · simp at hnew
      · simp at hnew
    · simp only [Outcome.ok.injEq] at hnew
      rw [← hnew]
      exact ⟨rfl, rfl⟩

/-- Instance of C7 (amended) on the 4 by 3 table: `ReadRow(2)`, `Read()`, `ReadRow(3)` and
`ReadColumn(0)` in sequence leave `Dims() = [4, 3]`, and `ReadSubset([1, 2], [0, 2])`
sets it to `[2, 3]`. -/
theorem C7_Dims_kept_except_by_ReadSubset_witness :
    ((exampleHandle 0 2).run (HdfReaderSync.asReader exampleLib) id
        [.ReadRow 2 exampleDest, .Read, .ReadRow 3 exampleDest,
          .ReadColumn 0 exampleDest]).1.Dims = [4, 3] ∧
      ((exampleHandle 0 2).ReadSubset (HdfReaderSync.asReader exampleLib) [1, 2]
        [0, 2]).handle.Dims = [2, 3] := by
  have hthm := C7_Dims_kept_except_by_ReadSubset exampleLib id (exampleHandle 0 2) rfl
  refine ⟨hthm.1 _ (by intro op hop rr cr heq; subst heq; simp at hop), ?_⟩
  obtain ⟨r0, r1, c0, c1, rt, ct, hrr, hcr, hdims⟩ := hthm.2.1 [1, 2] [0, 2] (by decide)
  simp only [List.cons.injEq] at hrr hcr
  obtain ⟨rfl, rfl, _⟩ := hrr
  obtain ⟨rfl, rfl, _⟩ := hcr
  rw [hdims]
  decide

/-! ## Theorems: the compound-record decoder -/

/-- C3: for the destination `A float64`, `B uint8` with source members `a`, `b` the table
is built without error and `PackedSize()` is 9, yet on the record with bytes 1 to 9
`unpack` advances the cursor by 4 over the `float64` field: field `b` is decoded from
byte 4 (value 5), not from byte 8 (value 9), and the cursor after the last field is 5. -/
theorem C3_float64_advances_cursor_by_four :
    exampleCam.BuildUnpackTable.2 = none ∧
      exampleCam.BuildUnpackTable.1.PackedSize = 9 ∧
      unpackLoop [Kind.Float64, Kind.Uint8] [1, 2, 3, 4, 5, 6, 7, 8, 9]
          exampleCam.BuildUnpackTable.1.UT ([.zero, .zero], 0) =
        some ([.float64 (littleEndian [1, 2, 3, 4, 5, 6, 7, 8]), .uint8 5], 5) ∧
      unpack [Kind.Float64, Kind.Uint8] [1, 2, 3, 4, 5, 6, 7, 8, 9]
          exampleCam.BuildUnpackTable.1 =
        .ok [.float64 (littleEndian [1, 2, 3, 4, 5, 6, 7, 8]), .uint8 5] := by
  refine ⟨?_, ?_, ?_, ?_⟩ <;> decide

/-- The search of `destType` fails exactly when no destination field has the name. -/
theorem destTypeIn_eq_none (n : String) (ds : List FieldMetadata) :
    destTypeIn n ds = none ↔ ∀ v ∈ ds, v.HdfName ≠ n := by
  induction ds with
  | nil => simp [destTypeIn]
  | cons d ds ih =>
    by_cases hd : d.HdfName = n
    · simp [destTypeIn, hd]
    · simp [destTypeIn, hd, ih]

/-- A field found by `destType` is a destination field with the name searched. -/
theorem destTypeIn_eq_some (n : String) (ds : List FieldMetadata) (v : FieldMetadata)
    (h : destTypeIn n ds = some v) : v ∈ ds ∧ v.HdfName = n := by
  induction ds with
  | nil => simp [destTypeIn] at h
  | cons d ds ih =>
    by_cases hd : d.HdfName = n
    · simp only [destTypeIn, hd, if_true, Option.some.injEq] at h
      subst h
      exact ⟨List.mem_cons_self _ _, hd⟩
    · simp only [destTypeIn, hd, if_false] at h
      exact ⟨List.mem_cons_of_mem _ (ih h).1, (ih h).2⟩

/-- The loop of `BuildUnpackTable` fails only on a name without destination field, and
otherwise appends a `TableFor` the names, all of which have a destination field. -/
theorem buildUnpackLoop_spec (cam : CompoundAttributeMetadata) (fns : List String) :
    ∀ (i : Int) (ut : List unpackTable),
      (∀ err, buildUnpackLoop cam fns i ut = .error err →
        ∃ fn ∈ fns, ∀ v ∈ cam.Dest, v.HdfName ≠ fn) ∧
      (∀ res, buildUnpackLoop cam fns i ut = .ok res →
        (∀ fn ∈ fns, ∃ v ∈ cam.Dest, v.HdfName = fn) ∧
          ∃ us, res = ut ++ us ∧ TableFor cam fns i us) := by
  induction fns with
  | nil =>
    intro i ut
    refine ⟨fun err h => by simp [buildUnpackLoop] at h, fun res h => ?_⟩
    simp only [buildUnpackLoop, Except.ok.injEq] at h
    refine ⟨by simp, [], by simp [h], rfl, ?_⟩
    intro k e he
    simp at he
  | cons fn fns ih =>
    intro i ut
    cases hfind : destTypeIn fn cam.Dest with
    | none =>
      have hmiss := (destTypeIn_eq_none fn cam.Dest).1 hfind
      refine ⟨fun _ _ => ⟨fn, List.mem_cons_self _ _, hmiss⟩, fun res h => ?_⟩
      simp [buildUnpackLoop, CompoundAttributeMetadata.destType, hfind] at h
    | some fm =>
      obtain ⟨hmem, hname⟩ := destTypeIn_eq_some fn cam.Dest fm hfind
      have hstep : buildUnpackLoop cam (fn :: fns) i ut =
          buildUnpackLoop cam fns (i + 1) (ut ++ [⟨i, fm.FieldIndex, typeSize fm⟩]) := by
        simp [buildUnpackLoop, CompoundAttributeMetadata.destType, hfind]
      rw [hstep]
      obtain ⟨herr, hok⟩ := ih (i + 1) (ut ++ [⟨i, fm.FieldIndex, typeSize fm⟩])
      constructor
      · intro err h
        obtain ⟨f, hf, hv⟩ := herr err h
        exact ⟨f, List.mem_cons_of_mem _ hf, hv⟩
      · intro res h
        obtain ⟨hall, us, hres, hlen, hent⟩ := hok res h
        refine ⟨?_, ⟨i, fm.FieldIndex, typeSize fm⟩ :: us, by simp [hres], by simp [hlen], ?_⟩
        · intro f hf
          rcases List.mem_cons.1 hf with rfl | hf
          · exact ⟨fm, hmem, hname⟩
          · exact hall f hf
        · intro k e he
          cases k with
          | zero =>
            simp only [List.getElem?_cons_zero, Option.some.injEq] at he
            subst he
            exact ⟨by simp, fm, hmem, by simp [hname], rfl⟩
          | succ k =>
            simp only [List.getElem?_cons_succ] at he
            obtain ⟨hidx, v, hv, hfn, htgt⟩ := hent k e he
            refine ⟨?_, v, hv, by simpa using hfn, htgt⟩
            rw [hidx]
            push_cast
            ring

/-- C4: `BuildUnpackTable` returns an error if and only if some source field name is the
`HdfName` of no destination field; when it returns nil, `UT` has one entry per source
field, the `i`-th with `ValueIndex = i` and with `TargetIndex` the `FieldIndex` of a
destination field whose `HdfName` is `FieldNames[i]`. -/
theorem C4_BuildUnpackTable (cam : CompoundAttributeMetadata) :
    (cam.BuildUnpackTable.2 ≠ none ↔
      ∃ fn ∈ cam.FieldNames, ∀ v ∈ cam.Dest, v.HdfName ≠ fn) ∧
    (cam.BuildUnpackTable.2 = none →
      cam.BuildUnpackTable.1.UT.length = cam.FieldNames.length ∧
      ∀ (i : Nat) (fn : String), cam.FieldNames[i]? = some fn →
        ∃ e, cam.BuildUnpackTable.1.UT[i]? = some e ∧ e.ValueIndex = i ∧
          ∃ v ∈ cam.Dest, v.HdfName = fn ∧ e.TargetIndex = v.FieldIndex) := by
  obtain ⟨herr, hok⟩ := buildUnpackLoop_spec cam cam.FieldNames 0 []
  unfold CompoundAttributeMetadata.BuildUnpackTable
  cases hres : buildUnpackLoop cam cam.FieldNames 0 [] with
  | error err =>
    refine ⟨⟨fun _ => herr err hres, fun _ => by simp⟩, fun h => by simp at h⟩
  | ok res =>
    obtain ⟨hall, us, hus, hlen, hent⟩ := hok res hres
    simp only [List.nil_append] at hus
    subst hus
    refine ⟨⟨fun h => by simp at h, ?_⟩, fun _ => ⟨hlen, ?_⟩⟩
    · rintro ⟨fn, hfn, hmiss⟩
      obtain ⟨v, hv, hname⟩ := hall fn hfn
      exact absurd hname (hmiss v hv)
    · intro i fn hi
      have hlt : i < res.length := by
        rw [hlen]
        exact (List.getElem?_eq_some_iff.1 hi).1
      refine ⟨res[i], List.getElem?_eq_getElem hlt, ?_⟩
      obtain ⟨hidx, v, hv, hfn, htgt⟩ := hent i res[i] (List.getElem?_eq_getElem hlt)
      refine ⟨by simpa using hidx, v, hv, ?_, htgt⟩
      rw [hi] at hfn
      exact (Option.some.inj hfn).symm

/-! ## Theorems: range checks of `ReadSubset` -/

/-- C6 (as stated) fails: on the 4 by 3 table, behind a backend that refuses selections
outside the table, `HdfReaderAsync.ReadSubset` with the inverted row range `[5, 2]` never
returns (the worker exits through `log.Fatal` before it opens the pipe, and the caller
stays in `os.OpenFile`), and `HdfReaderSync.ReadSubset` with an empty row range panics on
`rowrange[1]`; neither fails with an error. -/
theorem C6_invalid_range_without_error :
    exampleAsync.ReadSubset (workerOS exampleLib [4, 3]) [5, 2] [0, 1] = none ∧
      exampleReader.ReadSubset exampleLib [] [0, 1] = .panic := by
  refine ⟨?_, ?_⟩ <;> decide

/-- An error returned by `getMemspace` is the error of `SelectHyperslab` or of
`CreateSimpleDataspace` on the counts computed from the ranges. -/
theorem getMemspace_error (lib : Hdf5Lib) (rr cr : List Int) (e : String)
    (h : HdfReaderSync.getMemspace lib rr cr = .err e) :
    ∃ r0 r1 c0 c1 rt ct, rr = r0 :: r1 :: rt ∧ cr = c0 :: c1 :: ct ∧
      (lib.SelectHyperslab [toUint r0, toUint c0] [1, 1]
          [(toUint (r1 - r0) + 1) % 2 ^ 64, (toUint (c1 - c0) + 1) % 2 ^ 64] [1, 1] = some e ∨
        lib.CreateSimpleDataspace
          [(toUint (r1 - r0) + 1) % 2 ^ 64, (toUint (c1 - c0) + 1) % 2 ^ 64]
          [(toUint (r1 - r0) + 1) % 2 ^ 64, (toUint (c1 - c0) + 1) % 2 ^ 64] = some e) := by
  unfold HdfReaderSync.getMemspace at h
  split at h
  · rename_i r0 r1 rt c0 c1 ct
    refine ⟨r0, r1, c0, c1, rt, ct, rfl, rfl, ?_⟩
    simp only at h
    split at h
    · rename_i err hsel
      simp only [Outcome.err.injEq] at h
      exact Or.inl (h ▸ hsel)
    · split at h
      · rename_i err hcre
        simp only [Outcome.err.injEq] at h
        exact Or.inr (h ▸ hcre)
      · simp at h
  · simp at h

/-- An error returned by `makeDataset` is its message for an unsupported element type. -/
theorem makeDataset_error (dims : List Nat) (dtype : Kind) (n : Int) (e : String)
    (h : makeDataset dims dtype n = .err e) :
    e = "Unable to make dataset: invalid datatype" := by
  unfold makeDataset at h
  split at h
  · split at h <;> simp at h
  · split at h
    · split at h
      · simp at h
      · split at h <;> simp at h
    · simp only [Outcome.err.injEq] at h
      exact h.symm

/-- C6 (amended): `HdfReaderSync.ReadSubset` makes no range check of its own. On a range
with fewer than two entries it panics. For ranges of two entries each it hands the offsets
`uint(range[0])` and the counts `uint(range[1] - range[0]) + 1`, computed modulo `2^64`,
to the backend; when `SelectHyperslab` of the backend refuses that selection, `ReadSubset`
fails with the error of the backend, and an error it returns is always that of
`SelectHyperslab`, `CreateSimpleDataspace` or the dataset read of the backend, or the
message of `makeDataset` for an unsupported element type. When the reader's `ReadSubset`
returns an error, `HdfDataset.ReadSubset` returns it and leaves `Data`, `dsetdims` and the
window unchanged. -/
theorem C6_ReadSubset_leaves_range_check_to_backend :
    (∀ (lib : Hdf5Lib) (rd : HdfReaderSync) (rr cr : List Int),
      rr.length < 2 ∨ cr.length < 2 → rd.ReadSubset lib rr cr = .panic) ∧
    (∀ (lib : Hdf5Lib) (rd : HdfReaderSync) (r0 r1 c0 c1 : Int) (rt ct : List Int)
        (e : String),
      lib.SelectHyperslab [toUint r0, toUint c0] [1, 1]
          [(toUint (r1 - r0) + 1) % 2 ^ 64, (toUint (c1 - c0) + 1) % 2 ^ 64] [1, 1] = some e →
      rd.ReadSubset lib (r0 :: r1 :: rt) (c0 :: c1 :: ct) = .err e) ∧
    (∀ (lib : Hdf5Lib) (rd : HdfReaderSync) (rr cr : List Int) (e : String),
      rd.ReadSubset lib rr cr = .err e →
      ∃ r0 r1 c0 c1 rt ct, rr = r0 :: r1 :: rt ∧ cr = c0 :: c1 :: ct ∧
        (lib.SelectHyperslab [toUint r0, toUint c0] [1, 1]
            [(toUint (r1 - r0) + 1) % 2 ^ 64, (toUint (c1 - c0) + 1) % 2 ^ 64] [1, 1] =
              some e ∨
          lib.CreateSimpleDataspace
            [(toUint (r1 - r0) + 1) % 2 ^ 64, (toUint (c1 - c0) + 1) % 2 ^ 64]
            [(toUint (r1 - r0) + 1) % 2 ^ 64, (toUint (c1 - c0) + 1) % 2 ^ 64] = some e ∨
          e = "Unable to make dataset: invalid datatype" ∨
          ∃ dest, (lib.ReadSubset dest [toUint r0, toUint c0]
            [(toUint (r1 - r0) + 1) % 2 ^ 64, (toUint (c1 - c0) + 1) % 2 ^ 64]).2 = some e)) ∧
    (∀ (σ : Type) (R : HdfReader σ) (h : HdfDataset σ) (rr cr : List Int) (e : String) (s : σ),
      R.ReadSubset h.Reader rr cr = (.err e, s) →
      (h.ReadSubset R rr cr).out = .err e ∧ (h.ReadSubset R rr cr).handle.Data = h.Data ∧
        (h.ReadSubset R rr cr).handle.dsetdims = h.dsetdims ∧
        (h.ReadSubset R rr cr).handle.increment = h.increment) := by
  refine ⟨?_, ?_, ?_, ?_⟩
  · intro lib rd rr cr hshort
    unfold HdfReaderSync.ReadSubset HdfReaderSync.getMemspace
    rcases rr with _ | ⟨r0, _ | ⟨r1, rt⟩⟩ <;> rcases cr with _ | ⟨c0, _ | ⟨c1, ct⟩⟩ <;>
      first
        | rfl
        | (exfalso; simp only [List.length_cons] at hshort; omega)
  · intro lib rd r0 r1 c0 c1 rt ct e hsel
    simp only [HdfReaderSync.ReadSubset, HdfReaderSync.getMemspace, hsel]
  · intro lib rd rr cr e herr
    unfold HdfReaderSync.ReadSubset at herr
    split at herr
    · rename_i dims hmem
      have hshape : ∃ r0 r1 c0 c1 rt ct, rr = r0 :: r1 :: rt ∧ cr = c0 :: c1 :: ct ∧
          dims = [(toUint (r1 - r0) + 1) % 2 ^ 64, (toUint (c1 - c0) + 1) % 2 ^ 64] := by
        unfold HdfReaderSync.getMemspace at hmem
        split at hmem
        · rename_i r0 r1 rt c0 c1 ct
          refine ⟨r0, r1, c0, c1, rt, ct, rfl, rfl, ?_⟩
          simp only at hmem
          split at hmem
          · simp at hmem
          · split at hmem
            · simp at hmem
            · simp only [Outcome.ok.injEq] at hmem
              exact hmem.symm
        · simp at hmem
      obtain ⟨r0, r1, c0, c1, rt, ct, hrr, hcr, hdims⟩ := hshape
      refine ⟨r0, r1, c0, c1, rt, ct, hrr, hcr, ?_⟩
      split at herr
      · rename_i dest hmk
        split at herr
        · rename_i d err hrd
          simp only [Outcome.err.injEq] at herr
          refine Or.inr (Or.inr (Or.inr ⟨dest, ?_⟩))
          subst hrr hcr hdims
          simp only [List.getD_cons_zero] at hrd
          rw [hrd, herr]
        · simp at herr
      · rename_i e1 hmk
        simp only [Outcome.err.injEq] at herr
        subst herr
        exact Or.inr (Or.inr (Or.inl (makeDataset_error _ _ _ _ hmk)))
      · simp at herr
    · rename_i e1 hmem
      simp only [Outcome.err.injEq] at herr
      subst herr
      obtain ⟨r0, r1, c0, c1, rt, ct, hrr, hcr, hor⟩ := getMemspace_error lib rr cr e1 hmem
      refine ⟨r0, r1, c0, c1, rt, ct, hrr, hcr, ?_⟩
      rcases hor with hsel | hcre
      · exact Or.inl hsel
      · exact Or.inr (Or.inl hcre)
    · simp at herr
  · intro σ R h rr cr e s herr
    simp [HdfDataset.ReadSubset, herr]

/-- Instance of C6 (amended) on the 4 by 3 table behind the backend that refuses selections
outside the table: `HdfReaderSync.ReadSubset` with the inverted row range `[5, 2]` fails
with the error of the backend, and `HdfDataset.ReadSubset` returns it and keeps the nil
`Data`, the shape and the empty window. -/
theorem C6_ReadSubset_leaves_range_check_to_backend_witness :
    exampleReader.ReadSubset exampleLib [5, 2] [0, 1] =
        .err "hyperslab selection out of bounds" ∧
      ((exampleHandle 0 2).ReadSubset (HdfReaderSync.asReader exampleLib) [5, 2] [0, 1]).out =
        .err "hyperslab selection out of bounds" ∧
      ((exampleHandle 0 2).ReadSubset (HdfReaderSync.asReader exampleLib) [5, 2]
        [0, 1]).handle.Data = none ∧
      ((exampleHandle 0 2).ReadSubset (HdfReaderSync.asReader exampleLib) [5, 2]
        [0, 1]).handle.dsetdims = [4, 3] ∧
      ((exampleHandle 0 2).ReadSubset (HdfReaderSync.asReader exampleLib) [5, 2]
        [0, 1]).handle.increment = ⟨0, -1⟩ := by
  have hsync := C6_ReadSubset_leaves_range_check_to_backend.2.1 exampleLib exampleReader
    5 2 0 1 [] [] "hyperslab selection out of bounds" (by decide)
  have hset := C6_ReadSubset_leaves_range_check_to_backend.2.2.2 HdfReaderSync
    (HdfReaderSync.asReader exampleLib) (exampleHandle 0 2) [5, 2] [0, 1]
    "hyperslab selection out of bounds" exampleReader (by rw [← hsync]; rfl)
  exact ⟨hsync, hset.1, hset.2.1, hset.2.2.1, hset.2.2.2⟩

/-! ## Theorems: the asynchronous reader -/

/-- `HdfReaderAsync.read` returns an error only when `GetPipe` does. -/
theorem HdfReaderAsync_read_error (os : AsyncOS) (h : HdfReaderAsync) (dimsOnly : Bool)
    (e : String) (hread : h.read os dimsOnly = some (.err e)) : os.GetPipe.2 = some e := by
  unfold HdfReaderAsync.read at hread
  split at hread
  · rename_i pipe err hp
    simp only [Option.some.injEq, Outcome.err.injEq] at hread
    rw [hp, hread]
  · split at hread
    · simp at hread
    · simp at hread
    · split at hread <;> simp at hread

/-- C9: the descriptor built by `read` always carries the reader's stored `subset` as
`HDFSUBSET`. On the 4 by 3 table a fresh reader sends the empty value and `Read()` returns
the whole table; after `ReadSubset([0, 1], [0, 1])` the reader keeps `subset = "0,1,0,1"`,
`Read()` sends that value, and the worker answers with the 2 by 2 sub-block. -/
theorem C9_Read_after_ReadSubset_sends_subset :
    (∀ (h : HdfReaderAsync) (pipe : String) (dimsOnly : Bool),
      (h.descriptor pipe dimsOnly).Vars.lookup "HDFSUBSET" = some h.subset) ∧
    (exampleAsync.descriptor "/workspaces/pipes/0" false).Vars.lookup "HDFSUBSET" = some "" ∧
    (exampleAsync.Read (workerOS exampleLib [4, 3])).map (fun res => res.1) =
      some (.ok ⟨[4, 3], [4, 3],
        some ⟨Kind.Int32, [0, 1, 2, 3, 4, 5, 6, 7, 8, 9, 10, 11]⟩⟩) ∧
    (exampleAsync.ReadSubset (workerOS exampleLib [4, 3]) [0, 1] [0, 1]).map
        (fun res => res.2) = some { exampleAsync with dims := [2, 2], subset := "0,1,0,1" } ∧
    (({ exampleAsync with dims := [2, 2], subset := "0,1,0,1" } : HdfReaderAsync).descriptor
        "/workspaces/pipes/0" false).Vars.lookup "HDFSUBSET" = some "0,1,0,1" ∧
    (({ exampleAsync with dims := [2, 2], subset := "0,1,0,1" } : HdfReaderAsync).Read
        (workerOS exampleLib [4, 3])).map (fun res => res.1) =
      some (.ok ⟨[4, 3], [2, 2], some ⟨Kind.Int32, [0, 1, 3, 4]⟩⟩) := by
  refine ⟨fun h pipe dimsOnly => rfl, ?_, ?_, ?_, ?_, ?_⟩ <;> decide

/-- C10: when the worker opens the pipe and closes it without writing, the transfer run
by `RunAsync` ends with the decode error `EOF`, which `RunAsync` returns, and
`HdfReaderAsync.Read` and `HdfReaderAsync.ReadSubset` return a nil error together with the
empty `HdfData`; the same happens with the decode error `unexpected EOF` of a value cut
short. In general `read` answers a transfer that ended with a decode error by a nil error
and the destination as `Decode` left it, and `Read` and `ReadSubset` return no error at
all once `GetPipe` succeeded. -/
theorem C10_decode_error_dropped :
    RunAsync (closedPipeOS "EOF") "DSET"
        (exampleAsync.descriptor "/workspaces/pipes/0" false) ⟨[], [], none⟩ =
      .returned ⟨⟨[], [], none⟩, some "EOF", true⟩ ∧
    (exampleAsync.Read (closedPipeOS "EOF")).map (fun res => res.1) =
      some (.ok ⟨[], [], none⟩) ∧
    (exampleAsync.ReadSubset (closedPipeOS "EOF") [0, 1] [0, 1]).map (fun res => res.1) =
      some (.ok ⟨[], [], none⟩) ∧
    RunAsync (closedPipeOS "unexpected EOF") "DSET"
        (exampleAsync.descriptor "/workspaces/pipes/0" false) ⟨[], [], none⟩ =
      .returned ⟨⟨[], [], none⟩, some "unexpected EOF", true⟩ ∧
    (exampleAsync.Read (closedPipeOS "unexpected EOF")).map (fun res => res.1) =
      some (.ok ⟨[], [], none⟩) ∧
    (∀ (os : AsyncOS) (h : HdfReaderAsync) (dimsOnly : Bool) (pipe : String) (d : HdfData)
        (err : String),
      os.GetPipe = (pipe, none) →
      RunAsync os "DSET" (h.descriptor pipe dimsOnly) ⟨[], [], none⟩ =
        .returned ⟨d, some err, true⟩ →
      h.read os dimsOnly = some (.ok d)) ∧
    (∀ (os : AsyncOS) (h : HdfReaderAsync) (e : String) (h1 : HdfReaderAsync),
      os.GetPipe.2 = none → h.Read os ≠ some (.err e, h1)) ∧
    (∀ (os : AsyncOS) (h : HdfReaderAsync) (rr cr : List Int) (e : String)
        (h1 : HdfReaderAsync),
      os.GetPipe.2 = none → h.ReadSubset os rr cr ≠ some (.err e, h1)) := by
  refine ⟨?_, ?_, ?_, ?_, ?_, ?_, ?_, ?_⟩
  · decide
  · decide
  · decide
  · decide
  · decide
  · intro os h dimsOnly pipe d err hpipe hrun
    simp [HdfReaderAsync.read, hpipe, hrun]
  · intro os h e h1 hpipe hres
    unfold HdfReaderAsync.Read at hres
    split at hres
    · simp at hres
    · simp at hres
    · rename_i e1 hread
      have := HdfReaderAsync_read_error os h false e1 hread
      rw [hpipe] at this
      simp at this
    · simp at hres
  · intro os h rr cr e h1 hpipe hres
    unfold HdfReaderAsync.ReadSubset at hres
    split at hres
    · simp only at hres
      split at hres
      · simp at hres
      · simp at hres
      · rename_i e1 hread
        have := HdfReaderAsync_read_error os _ false e1 hread
        rw [hpipe] at this
        simp at this
      · simp at hres
    · simp at hres

/-! ## Theorems: member counts of the two schemas -/

/-- The loop over the destination fields keeps their order: the `HdfName`s of its result
are those accumulated followed by the `hdf` tags of the fields. -/
theorem fieldMetadataLoop_names (dest : List StructField) :
    ∀ (j : Int) (acc fms : List FieldMetadata), fieldMetadataLoop dest j acc = some fms →
      fms.map (fun v => v.HdfName) =
        acc.map (fun v => v.HdfName) ++ dest.map (fun f => f.hdf.getD "") := by
  induction dest with
  | nil =>
    intro j acc fms h
    simp only [fieldMetadataLoop, Option.some.injEq] at h
    simp [h]
  | cons f fs ih =>
    intro j acc fms h
    unfold fieldMetadataLoop at h
    split at h
    · rw [ih _ _ _ h]
      simp
    · split at h
      · simp at h
      · rw [ih _ _ _ h]
        simp

/-- C11 (as stated) fails: for the source members `a`, `b` and the destination struct with
the three fields `A`, `B`, `C` (tags `a`, `b`, `c`) the member counts differ, and
`compoundAttrMetadata` returns a nil error with a table for `a` and `b` only. -/
theorem C11_more_destination_fields_accepted :
    exampleStruct.length = 3 ∧
      compoundAttrMetadata id (.ok ["a", "b"]) exampleStruct =
        (⟨2, ["a", "b"],
          [⟨"A", 0, Kind.Float64, 0, "a"⟩, ⟨"B", 1, Kind.Uint8, 0, "b"⟩,
            ⟨"C", 2, Kind.Int32, 0, "c"⟩],
          [⟨0, 0, 8⟩, ⟨1, 1, 1⟩]⟩, none) := by
  refine ⟨rfl, ?_⟩
  decide

/-- C11 (amended): the construction does not compare member counts. With a readable
datatype and `strlen` tags that parse, `compoundAttrMetadata` fails exactly when some
trimmed source member name is the `hdf` tag of no destination field; when it succeeds the
table has one entry per source member, whatever the number of destination fields; and it
does fail when the source has more members, with distinct names, than the destination has
fields. -/
theorem C11_layout_ignores_member_count (TrimSpace : String → String) (members : List String)
    (dest : List StructField) (fms : List FieldMetadata)
    (hfm : fieldMetadataLoop dest 0 [] = some fms) :
    ((compoundAttrMetadata TrimSpace (.ok members) dest).2 ≠ none ↔
      ∃ m ∈ members, ∀ f ∈ dest, f.hdf.getD "" ≠ TrimSpace m) ∧
    ((compoundAttrMetadata TrimSpace (.ok members) dest).2 = none →
      (compoundAttrMetadata TrimSpace (.ok members) dest).1.UT.length = members.length) ∧
    ((members.map TrimSpace).Nodup → dest.length < members.length →
      (compoundAttrMetadata TrimSpace (.ok members) dest).2 ≠ none) := by
  have hnames := fieldMetadataLoop_names dest 0 [] fms hfm
  simp only [List.map_nil, List.nil_append] at hnames
  have hmem : ∀ n : String, (∀ v ∈ fms, v.HdfName ≠ n) ↔ ∀ f ∈ dest, f.hdf.getD "" ≠ n := by
    intro n
    have h1 : (∀ v ∈ fms, v.HdfName ≠ n) ↔ n ∉ fms.map (fun v => v.HdfName) := by
      simp only [List.mem_map, not_exists, not_and]
    have h2 : (∀ f ∈ dest, f.hdf.getD "" ≠ n) ↔ n ∉ dest.map (fun f => f.hdf.getD "") := by
      simp only [List.mem_map, not_exists, not_and]
    rw [h1, h2, hnames]
  have hcam : compoundAttrMetadata TrimSpace (.ok members) dest =
      CompoundAttributeMetadata.BuildUnpackTable
        ⟨members.length, members.map TrimSpace, fms, []⟩ := by
    simp [compoundAttrMetadata, hfm]
  rw [hcam]
  obtain ⟨herr, hok⟩ := buildUnpackLoop_spec
    ⟨members.length, members.map TrimSpace, fms, []⟩ (members.map TrimSpace) 0 []
  have hiff : (CompoundAttributeMetadata.BuildUnpackTable
        ⟨members.length, members.map TrimSpace, fms, []⟩).2 ≠ none ↔
      ∃ m ∈ members, ∀ f ∈ dest, f.hdf.getD "" ≠ TrimSpace m := by
    unfold CompoundAttributeMetadata.BuildUnpackTable
    cases hres : buildUnpackLoop ⟨members.length, members.map TrimSpace, fms, []⟩
        (members.map TrimSpace) 0 [] with
    | error err =>
      refine ⟨fun _ => ?_, fun _ => by simp⟩
      obtain ⟨fn, hfn, hmiss⟩ := herr err hres
      obtain ⟨m, hm, rfl⟩ := List.mem_map.1 hfn
      exact ⟨m, hm, (hmem _).1 hmiss⟩
    | ok res =>
      refine ⟨fun h => by simp at h, ?_⟩
      rintro ⟨m, hm, hmiss⟩
      obtain ⟨v, hv, hname⟩ := (hok res hres).1 (TrimSpace m) (List.mem_map_of_mem _ hm)
      exact absurd hname ((hmem _).2 hmiss v hv)
  refine ⟨hiff, ?_, ?_⟩
  · intro hnone
    unfold CompoundAttributeMetadata.BuildUnpackTable at hnone ⊢
    cases hres : buildUnpackLoop ⟨members.length, members.map TrimSpace, fms, []⟩
        (members.map TrimSpace) 0 [] with
    | error err => simp [hres] at hnone
    | ok res =>
      obtain ⟨_, us, hus, hlen, _⟩ := hok res hres
      simp only [List.nil_append] at hus
      simp [hus, hlen]
  · intro hnodup hlt
    rw [hiff]
    by_contra hall
    push_neg at hall
    have hsub : members.map TrimSpace ⊆ dest.map (fun f => f.hdf.getD "") := by
      intro n hn
      obtain ⟨m, hm, rfl⟩ := List.mem_map.1 hn
      obtain ⟨f, hf, hfn⟩ := hall m hm
      exact List.mem_map.2 ⟨f, hf, hfn⟩
    have hle := (List.subperm_of_subset hnodup hsub).length_le
    simp only [List.length_map] at hle
    omega

/-- Instance of C11 (amended): for the struct `A`, `B`, `C` the source `a`, `b` is accepted
with a table of two entries, and the source `a`, `b`, `c`, `d` is refused. -/
theorem C11_layout_ignores_member_count_witness :
    (compoundAttrMetadata id (.ok ["a", "b"]) exampleStruct).1.UT.length = 2 ∧
      (compoundAttrMetadata id (.ok ["a", "b", "c", "d"]) exampleStruct).2 ≠ none := by
  have h2 := C11_layout_ignores_member_count id ["a", "b"] exampleStruct
    [⟨"A", 0, Kind.Float64, 0, "a"⟩, ⟨"B", 1, Kind.Uint8, 0, "b"⟩,
      ⟨"C", 2, Kind.Int32, 0, "c"⟩] (by decide)
  have h4 := C11_layout_ignores_member_count id ["a", "b", "c", "d"] exampleStruct
    [⟨"A", 0, Kind.Float64, 0, "a"⟩, ⟨"B", 1, Kind.Uint8, 0, "b"⟩,
      ⟨"C", 2, Kind.Int32, 0, "c"⟩] (by decide)
  exact ⟨h2.2.1 (by decide), h4.2.2 (by decide) (by decide)⟩

/-! ## Theorems: string column sets and the worker environment -/

/-- C13: for the column widths 3, 5, 2 `BytesTo(1)` is 0 and `BytesTo(2)` is 3 (the sums
stop one width early; the offsets of the columns are 0, 3 and 8), `BytesTo(3)` returns an
error, and the column read of column 1 takes bytes `[0, 5)` of each row (`abcDE`,
`klmNO`) instead of bytes `[3, 8)`. -/
theorem C13_BytesTo_stops_one_width_early :
    (NewHdfStrSet [3, 5, 2]).BytesTo 0 = some (0, none) ∧
      (NewHdfStrSet [3, 5, 2]).BytesTo 1 = some (0, none) ∧
      (NewHdfStrSet [3, 5, 2]).BytesTo 2 = some (3, none) ∧
      (NewHdfStrSet [3, 5, 2]).BytesTo 3 =
        some (-1, some "Column number requested exceeds the size of the string array") ∧
      (NewHdfStrSet [3, 5, 2]).Size 1 = some (5, none) ∧
      exampleStrings.readVectorString id false 1 (.strings []) =
        .ok (.strings [[97, 98, 99, 68, 69], [107, 108, 109, 78, 79]]) := by
  refine ⟨?_, ?_, ?_, ?_, ?_, ?_⟩ <;> decide

/-- The running sum of `NewHdfStrSet` and of `sum` from a start value: the mathematical
sum reduced to the 64-bit range. -/
theorem foldl_add_eq_sum (xs : List Int) (a : Int) :
    xs.foldl (fun result v => wrapInt (result + v)) (wrapInt a) = wrapInt (a + xs.sum) := by
  induction xs generalizing a with
  | nil => simp
  | cons x xs ih =>
    simp only [List.foldl_cons, List.sum_cons]
    rw [show wrapInt (wrapInt a + x) = wrapInt (a + x) by unfold wrapInt; omega, ih (a + x),
      add_assoc]

/-- C14: a set built by `NewHdfStrSet` has `RowSize()` equal to the sum of `Cols()` (in
64-bit arithmetic, as Go `sum` computes it), but `FromString` assigns the widths only: `NewHdfStrSet(3, 5, 2)` has `RowSize() = 10` and
prints as `3,5,2`, and parsing that into a fresh set succeeds with `Cols() = [3, 5, 2]` and
`RowSize() = 0`. -/
theorem C14_FromString_leaves_RowSize :
    (∀ sizes : List Int, (NewHdfStrSet sizes).RowSize = sum (NewHdfStrSet sizes).Cols ∧
        (NewHdfStrSet sizes).RowSize = wrapInt (NewHdfStrSet sizes).Cols.sum) ∧
      (NewHdfStrSet [3, 5, 2]).RowSize = 10 ∧
      (NewHdfStrSet [3, 5, 2]).ToString = "3,5,2" ∧
      (HdfStrSet.FromString ⟨[], 0⟩ (NewHdfStrSet [3, 5, 2]).ToString).2 = none ∧
      (HdfStrSet.FromString ⟨[], 0⟩ (NewHdfStrSet [3, 5, 2]).ToString).1.Cols = [3, 5, 2] ∧
      (HdfStrSet.FromString ⟨[], 0⟩ (NewHdfStrSet [3, 5, 2]).ToString).1.RowSize = 0 ∧
      sum (HdfStrSet.FromString ⟨[], 0⟩ (NewHdfStrSet [3, 5, 2]).ToString).1.Cols = 10 := by
  refine ⟨fun sizes => ⟨rfl, ?_⟩, ?_, ?_, ?_, ?_, ?_, ?_⟩
  · have h := foldl_add_eq_sum sizes 0
    rw [show wrapInt 0 = 0 by decide, zero_add] at h
    exact h
  all_goals decide

/-- The loop of `varsToEnv` appends one entry per variable to the slice it starts from. -/
theorem varsToEnv_loop (vars : List (String × String)) (init : List String) :
    vars.foldl (fun env kv => env ++ [kv.1 ++ "=" ++ kv.2]) init =
      init ++ vars.map (fun kv => kv.1 ++ "=" ++ kv.2) := by
  induction vars generalizing init with
  | nil => simp
  | cons kv vars ih =>
    simp only [List.foldl_cons, List.map_cons]
    rw [ih]
    simp

/-- C15: `varsToEnv` returns `len(vars)` empty strings followed by the `len(vars)` entries
`key=value`, so `2 * len(vars)` entries; for the two variables `HDFSUBSET` and
`HDFDIMSONLY` the result starts with two empty entries. -/
theorem C15_varsToEnv_leading_empty_entries :
    (∀ vars : List (String × String),
      varsToEnv vars =
        List.replicate vars.length "" ++ vars.map (fun kv => kv.1 ++ "=" ++ kv.2)) ∧
    (∀ vars : List (String × String), (varsToEnv vars).length = 2 * vars.length) ∧
    varsToEnv [("HDFSUBSET", "0,1,0,1"), ("HDFDIMSONLY", "false")] =
      ["", "", "HDFSUBSET=0,1,0,1", "HDFDIMSONLY=false"] := by
  refine ⟨fun vars => varsToEnv_loop vars _, fun vars => ?_, by decide⟩
  unfold varsToEnv
  rw [varsToEnv_loop]
  simp
  omega

/-! ## Theorems: values served from the window -/

end Hdf5utils
